import Mathlib

/-!
Verification development for the Time-Table-Generator scheduling core.

The definitions below are a shallow embedding of the Python sources:
  src/Backend/app/models.py        (dataclasses, shared by both package copies)
  src/Backend/trackers.py          (ScheduleTracker, InstructorTracker)
  src/Backend/constraints.py       (can_assign_instructor_to_lab)
  src/Backend/validators.py        (validate_schedule)
  src/Backend/instructor_assignment.py      (strict assignment pass)
  src/backend/app/instructor_assignment.py  (tolerant assignment pass)
  src/backend/app/scheduler.py     (TimetableScheduler and all phases)
  src/backend/app/data_loader.py   (generate_time_slots)

Modelling conventions:
  * Python dicts and defaultdicts are modelled as total functions; the value at
    an absent key is the defaultdict default (None / 0 / empty).  defaultdict
    autovivification on read is semantically invisible under this view.
  * Python floats holding session-hour counts are modelled as rationals; every
    value the program manipulates (multiples of 1.5) is exact in both.
  * Python sets of strings are modelled as duplicate-free insertion lists; the
    operations used (membership, add, equality as sets) are mirrored.
  * Calls into the global `random` module are modelled by an explicit oracle
    indexed by a call counter; theorems quantify over all oracles.
-/

namespace TimeTable

/-- models.py TimeSlot dataclass. -/
structure TimeSlot where
  id : String
  day : String
  slot_number : Int
  start_time : String
  end_time : String
deriving DecidableEq

/-- models.py Lecture dataclass. -/
structure Lecture where
  course_code : String
  course_name : String
  instructor_name : String
  instructor_id : Int
  level : Int
  is_graduation_project : Bool := false
deriving DecidableEq

/-- models.py Lab dataclass. -/
structure Lab where
  course_code : String
  course_name : String
  room_code : String
  level : Int
deriving DecidableEq

/-- models.py Room dataclass. -/
structure Room where
  room_code : String
  room_type : String
  capacity : Option Int := none
  building : Option String := none
deriving DecidableEq

/-- models.py Section dataclass (named SectionRec since `section` is a Lean keyword). -/
structure SectionRec where
  section_id : String
  level : Int
  group_number : Int
  section_number : Int
  group_id : String
  department : Option String := none
deriving DecidableEq

/-- models.py Group dataclass. -/
structure Group where
  group_id : String
  level : Int
  group_number : Int
  sections : List SectionRec := []
deriving DecidableEq

/-- models.py LabInstructor dataclass.  max_hours_per_week is a Python float
(0.0 is falsy, meaning unlimited); hours are modelled as rationals. -/
structure LabInstructor where
  instructor_id : String
  instructor_name : String
  qualified_labs : List String
  max_hours_per_week : Rat
  instructor_type : String := "TA"
  current_hours : Rat := 0
deriving DecidableEq

/-- models.py Assignment dataclass. -/
structure Assignment where
  assignment_id : String
  type : String
  course_code : String
  course_name : String
  time_slot : TimeSlot
  room : String
  instructor : Option String := none
  instructor_id : Option Int := none
  lab_instructor_id : Option String := none
  lab_instructor_name : Option String := none
  assigned_to : List String := []
deriving DecidableEq

/-- Python truthiness of an Optional[str] field (None and "" are falsy). -/
def pyTruthyStr : Option String → Bool
  | none => false
  | some s => s ≠ ""

/-- Python truthiness of an Optional[int] field (None and 0 are falsy). -/
def pyTruthyInt : Option Int → Bool
  | none => false
  | some i => i ≠ 0

/-- Python set.add on a set modelled as a duplicate-free list. -/
def pySetAdd (x : String) (s : List String) : List String :=
  if x ∈ s then s else s ++ [x]

/-- Python substring test `needle in hay` restricted to a character list:
does the haystack start with the needle? -/
def leadMatch : List Char → List Char → Bool
  | _, [] => true
  | [], _ :: _ => false
  | h :: hs, n :: ns => h = n && leadMatch hs ns

/-- Python substring test `needle in hay` on character lists. -/
def subMatch : List Char → List Char → Bool
  | [], needle => needle.isEmpty
  | h :: hs, needle => leadMatch (h :: hs) needle || subMatch hs needle

/-- Python `needle in hay` on strings. -/
def pyStrIn (needle hay : String) : Bool :=
  subMatch hay.toList needle.toList

/-- Python str.strip() on a character list: whitespace removed at both ends. -/
def pyStripChars (cs : List Char) : List Char :=
  ((cs.dropWhile Char.isWhitespace).reverse.dropWhile Char.isWhitespace).reverse

/-- Python str.strip() on strings. -/
def pyStrip (s : String) : String :=
  String.mk (pyStripChars s.toList)

/-- Value of a nonempty all-digit character run, as Python int() reads it. -/
def pyDigits? (cs : List Char) : Option Nat :=
  if cs ≠ [] ∧ cs.all Char.isDigit then
    some (cs.foldl (fun acc c => 10 * acc + (c.toNat - 48)) 0)
  else none

/-- Python int(s) as applied to instructor-id strings in constraints.py:
optional surrounding whitespace, optional sign, a nonempty digit run; on any
other shape Python raises ValueError, modelled as none.  (Underscore digit
grouping accepted by Python 3.6+ literals is not modelled; no id uses it.) -/
def pyInt? (s : String) : Option Int :=
  match pyStripChars s.toList with
  | '+' :: rest => (pyDigits? rest).map (fun n => (n : Int))
  | '-' :: rest => (pyDigits? rest).map (fun n => -(n : Int))
  | rest => (pyDigits? rest).map (fun n => (n : Int))

/-- trackers.py ScheduleTracker: nested defaultdicts as total functions, absent
keys read as None (modelled by none) or the empty set. -/
structure ScheduleTracker where
  instructor_schedule : Int → String → Int → Option String
  room_schedule : String → String → Int → Option String
  group_schedule : String → String → Int → Option String
  section_schedule : String → String → Int → Option String
  group_lectures_assigned : String → List String
  section_labs_assigned : String → List String

namespace ScheduleTracker

/-- The freshly constructed tracker (ScheduleTracker.__init__). -/
def init : ScheduleTracker :=
  ⟨fun _ _ _ => none, fun _ _ _ => none, fun _ _ _ => none, fun _ _ _ => none,
   fun _ => [], fun _ => []⟩

def is_instructor_available (t : ScheduleTracker) (instructor_id : Int)
    (day : String) (slot_number : Int) : Bool :=
  (t.instructor_schedule instructor_id day slot_number).isNone

def is_room_available (t : ScheduleTracker) (room_code : String)
    (day : String) (slot_number : Int) : Bool :=
  (t.room_schedule room_code day slot_number).isNone

def is_group_available (t : ScheduleTracker) (group_id : String)
    (day : String) (slot_number : Int) : Bool :=
  (t.group_schedule group_id day slot_number).isNone

def is_section_available (t : ScheduleTracker) (section_id : String)
    (day : String) (slot_number : Int) : Bool :=
  (t.section_schedule section_id day slot_number).isNone

def has_group_taken_lecture (t : ScheduleTracker) (group_id course_code : String) : Bool :=
  (t.group_lectures_assigned group_id).contains course_code

def has_section_taken_lab (t : ScheduleTracker) (section_id course_code : String) : Bool :=
  (t.section_labs_assigned section_id).contains course_code

/-- trackers.py ScheduleTracker.assign_lecture.  The for-loop over section_ids
is rendered as a pointwise membership test. -/
def assign_lecture (t : ScheduleTracker) (assignment_id : String) (instructor_id : Int)
    (room_code group_id : String) (section_ids : List String) (course_code : String)
    (day : String) (slot_number : Int) : ScheduleTracker where
  instructor_schedule := fun i d s =>
    if i = instructor_id ∧ d = day ∧ s = slot_number then some assignment_id
    else t.instructor_schedule i d s
  room_schedule := fun r d s =>
    if r = room_code ∧ d = day ∧ s = slot_number then some assignment_id
    else t.room_schedule r d s
  group_schedule := fun g d s =>
    if g = group_id ∧ d = day ∧ s = slot_number then some assignment_id
    else t.group_schedule g d s
  section_schedule := fun sec d s =>
    if sec ∈ section_ids ∧ d = day ∧ s = slot_number then some assignment_id
    else t.section_schedule sec d s
  group_lectures_assigned := fun g =>
    if g = group_id then pySetAdd course_code (t.group_lectures_assigned g)
    else t.group_lectures_assigned g
  section_labs_assigned := t.section_labs_assigned

/-- trackers.py ScheduleTracker.assign_lab. -/
def assign_lab (t : ScheduleTracker) (assignment_id room_code section_id course_code : String)
    (day : String) (slot_number : Int) : ScheduleTracker where
  instructor_schedule := t.instructor_schedule
  room_schedule := fun r d s =>
    if r = room_code ∧ d = day ∧ s = slot_number then some assignment_id
    else t.room_schedule r d s
  group_schedule := t.group_schedule
  section_schedule := fun sec d s =>
    if sec = section_id ∧ d = day ∧ s = slot_number then some assignment_id
    else t.section_schedule sec d s
  group_lectures_assigned := t.group_lectures_assigned
  section_labs_assigned := fun sec =>
    if sec = section_id then pySetAdd course_code (t.section_labs_assigned sec)
    else t.section_labs_assigned sec

end ScheduleTracker

/-- trackers.py InstructorTracker. -/
structure InstructorTracker where
  instructor_schedule : String → String → Int → Option String
  instructor_hours : String → Rat
  instructors : String → Option LabInstructor

namespace InstructorTracker

/-- The freshly constructed tracker (InstructorTracker.__init__). -/
def init : InstructorTracker :=
  ⟨fun _ _ _ => none, fun _ => 0, fun _ => none⟩

def is_available (t : InstructorTracker) (instructor_id day : String)
    (slot_number : Int) : Bool :=
  (t.instructor_schedule instructor_id day slot_number).isNone

/-- trackers.py InstructorTracker.has_capacity: `not instructor` and
`not instructor.max_hours_per_week` are Python truthiness tests, the latter
true exactly for the float 0.0 (meaning no limit). -/
def has_capacity (t : InstructorTracker) (instructor_id : String)
    (hours_needed : Rat) : Bool :=
  match t.instructors instructor_id with
  | none => true
  | some instructor =>
    if instructor.max_hours_per_week = 0 then true
    else decide (t.instructor_hours instructor_id + hours_needed ≤ instructor.max_hours_per_week)

def is_qualified (t : InstructorTracker) (instructor_id course_code : String) : Bool :=
  match t.instructors instructor_id with
  | none => false
  | some instructor => instructor.qualified_labs.contains course_code

/-- trackers.py InstructorTracker.assign. -/
def assign (t : InstructorTracker) (instructor_id day : String) (slot_number : Int)
    (assignment_id : String) (hours : Rat) : InstructorTracker where
  instructor_schedule := fun i d s =>
    if i = instructor_id ∧ d = day ∧ s = slot_number then some assignment_id
    else t.instructor_schedule i d s
  instructor_hours := fun i =>
    if i = instructor_id then t.instructor_hours i + hours else t.instructor_hours i
  instructors := t.instructors

/-- trackers.py InstructorTracker.unassign. -/
def unassign (t : InstructorTracker) (instructor_id day : String) (slot_number : Int)
    (hours : Rat) : InstructorTracker where
  instructor_schedule := fun i d s =>
    if i = instructor_id ∧ d = day ∧ s = slot_number then none
    else t.instructor_schedule i d s
  instructor_hours := fun i =>
    if i = instructor_id then t.instructor_hours i - hours else t.instructor_hours i
  instructors := t.instructors

end InstructorTracker

/-- The human-readable reasons produced by constraints.py; each constructor
carries exactly the values interpolated into the corresponding Python f-string
(rendering of floats and names into the final text is not modelled).  The
capacity constructor's last field mirrors `max_hours or "unlimited"`. -/
inductive Reason where
  | notQualified (instructor_name course_code : String)
  | alreadyTeaching (instructor_name day : String) (slot_number : Int)
  | lectureConflict (instructor_name : String)
  | exceedsMaxHours (instructor_name : String) (current session_hours : Rat)
      (max_hours : Option Rat)
  | ok
deriving DecidableEq

/-- constraints.py can_assign_instructor_to_lab, constraint 4 and the success
fall-through (shared by both branches of the try/except in constraint 3). -/
def capacity_step (instructor : LabInstructor) (instructor_tracker : InstructorTracker)
    (session_hours : Rat) : Bool × Reason :=
  if instructor_tracker.has_capacity instructor.instructor_id session_hours = false then
    (false, .exceedsMaxHours instructor.instructor_name
      (instructor_tracker.instructor_hours instructor.instructor_id) session_hours
      (if instructor.max_hours_per_week = 0 then none else some instructor.max_hours_per_week))
  else (true, .ok)

/-- constraints.py can_assign_instructor_to_lab: the four hard rules checked in
order with early return.  Constraint 3's `int(instructor.instructor_id)` with
its ValueError handler is modelled by pyInt?. -/
def can_assign_instructor_to_lab (instructor : LabInstructor) (lab_assignment : Assignment)
    (instructor_tracker : InstructorTracker) (schedule_tracker : ScheduleTracker)
    (session_hours : Rat := 3/2) : Bool × Reason :=
  if instructor_tracker.is_qualified instructor.instructor_id lab_assignment.course_code = false then
    (false, .notQualified instructor.instructor_name lab_assignment.course_code)
  else if instructor_tracker.is_available instructor.instructor_id
      lab_assignment.time_slot.day lab_assignment.time_slot.slot_number = false then
    (false, .alreadyTeaching instructor.instructor_name
      lab_assignment.time_slot.day lab_assignment.time_slot.slot_number)
  else
    match pyInt? instructor.instructor_id with
    | some lecture_instructor_id =>
      if lecture_instructor_id < 100 ∧
          schedule_tracker.is_instructor_available lecture_instructor_id
            lab_assignment.time_slot.day lab_assignment.time_slot.slot_number = false then
        (false, .lectureConflict instructor.instructor_name)
      else capacity_step instructor instructor_tracker session_hours
    | none => capacity_step instructor instructor_tracker session_hours

/-- Rule 3 of the predicate as a standalone test: the cross-role lecture-slot
check passes (derived from the branch structure of constraints.py). -/
def lecture_conflict_free (schedule_tracker : ScheduleTracker) (instructor_id day : String)
    (slot_number : Int) : Bool :=
  match pyInt? instructor_id with
  | some lecture_instructor_id =>
    if lecture_instructor_id < 100 then
      schedule_tracker.is_instructor_available lecture_instructor_id day slot_number
    else true
  | none => true

/-- The per-level course data dictionaries handed to TimetableScheduler
(keys "lectures" and "labs"). -/
structure LevelData where
  lectures : List Lecture
  labs : List Lab
deriving DecidableEq

/-- The constructor arguments of scheduler.py TimetableScheduler.  The level-3
and level-4 dicts are keyed by department code and modelled as total
functions (Python would raise KeyError on a missing department). -/
structure SchedulerConfig where
  rooms : List Room
  groups : List Group
  sections : List SectionRec
  time_slots : List TimeSlot
  level_1_data : LevelData
  level_2_data : LevelData
  level_3_data : String → LevelData
  level_4_data : String → LevelData
  lab_instructors : List LabInstructor

/-- scheduler.py: self.lec_rooms. -/
def lec_rooms (cfg : SchedulerConfig) : List Room :=
  cfg.rooms.filter (fun r => r.room_type = "lec")

/-- scheduler.py: self.lab_rooms. -/
def lab_rooms (cfg : SchedulerConfig) : List Room :=
  cfg.rooms.filter (fun r => r.room_type = "lab")

/-- scheduler.py _calculate_instructor_limits: occurrences of the course code
across all instructors' qualified_labs lists (a course is a key of the
resulting dict exactly when this count is positive). -/
def calculate_instructor_limits (lab_instructors : List LabInstructor)
    (course_code : String) : Nat :=
  (lab_instructors.map (fun instructor => instructor.qualified_labs.count course_code)).sum

/-- scheduler.py: self.course_instructor_limits.get(course_code, 2). -/
def course_instructor_limit (cfg : SchedulerConfig) (course_code : String) : Nat :=
  let n := calculate_instructor_limits cfg.lab_instructors course_code
  if n = 0 then 2 else n

/-- %04d zero padding used by generate_assignment_id. -/
def format04 (n : Nat) : String :=
  let s := toString n
  String.mk (List.replicate (4 - s.length) '0') ++ s

/-- The mutable fields of TimetableScheduler written by the phases. -/
structure SchedState where
  tracker : ScheduleTracker
  assignments : List Assignment
  assignment_counter : Nat

/-- scheduler.py: the fresh scheduler state built in __init__. -/
def init_state : SchedState :=
  ⟨ScheduleTracker.init, [], 0⟩

/-- scheduler.py generate_assignment_id (increments the counter, returns the
formatted id together with the updated state). -/
def gen_assignment_id (st : SchedState) : String × SchedState :=
  ("A" ++ format04 (st.assignment_counter + 1),
   { st with assignment_counter := st.assignment_counter + 1 })

/-- The scheduler's calls into Python's global random module, as an oracle
indexed by a running call counter: shuffle_slots and shuffle_rooms stand for
random.shuffle in schedule_labs; select_candidate stands for the
sort-by-(usage, random.random) plus random.randint selection in
schedule_department_labs and is handed the nonempty candidate list. -/
structure RandomOracle where
  shuffle_slots : Nat → List TimeSlot → List TimeSlot
  shuffle_rooms : Nat → List Room → List Room
  select_candidate : Nat → (TimeSlot × String × Nat) → List (TimeSlot × String × Nat) →
    TimeSlot × String × Nat

/-- Soundness of the candidate selection oracle: Python's sort-then-index
selection always yields an element of the candidate list. -/
def RandomOracle.SelectsMember (O : RandomOracle) : Prop :=
  ∀ k c cs, O.select_candidate k c cs ∈ c :: cs

/-- Stable insertion of an element into a sorted list (le true also on equal
keys, so equal-key elements keep their original relative order). -/
def insertLe {α : Type} (le : α → α → Bool) (a : α) : List α → List α
  | [] => [a]
  | b :: bs => if le a b then a :: b :: bs else b :: insertLe le a bs

/-- Python's stable sorted(), modelled as stable insertion sort (a total,
kernel-computable model of the same stable ascending order). -/
def pySorted {α : Type} (le : α → α → Bool) : List α → List α
  | [] => []
  | a :: as => insertLe le a (pySorted le as)

/-- scheduler.py schedule_lectures: sorted(lectures_data,
key=(instructor_id, course_code)) (stable ascending sort). -/
def sort_lectures (lectures_data : List Lecture) : List Lecture :=
  pySorted (fun a b =>
    decide (a.instructor_id < b.instructor_id ∨
      (a.instructor_id = b.instructor_id ∧ a.course_code ≤ b.course_code))) lectures_data

/-- scheduler.py schedule_lectures: building and committing the lecture
Assignment once all constraints are satisfied (lines 107-128). -/
def commit_lecture (st : SchedState) (lecture : Lecture) (group : Group)
    (room : Room) (ts : TimeSlot) : SchedState :=
  let assignment_id := (gen_assignment_id st).1
  let st1 := (gen_assignment_id st).2
  let section_ids := group.sections.map (fun s => s.section_id)
  let a : Assignment :=
    { assignment_id := assignment_id
      type := "lecture"
      course_code := lecture.course_code
      course_name := lecture.course_name
      time_slot := ts
      room := room.room_code
      instructor := some lecture.instructor_name
      instructor_id := some lecture.instructor_id
      assigned_to := [group.group_id] ++ section_ids }
  { st1 with
    assignments := st1.assignments ++ [a]
    tracker := st1.tracker.assign_lecture assignment_id lecture.instructor_id
      room.room_code group.group_id section_ids lecture.course_code ts.day ts.slot_number }

/-- scheduler.py schedule_lectures: the `for time_slot in self.time_slots` loop
for one (lecture, group) pair; none models reaching the end with success
still False. -/
def try_lecture_slots (cfg : SchedulerConfig) (st : SchedState) (lecture : Lecture)
    (group : Group) : List TimeSlot → Option SchedState
  | [] => none
  | ts :: rest =>
    if st.tracker.is_instructor_available lecture.instructor_id ts.day ts.slot_number = false then
      try_lecture_slots cfg st lecture group rest
    else if st.tracker.is_group_available group.group_id ts.day ts.slot_number = false then
      try_lecture_slots cfg st lecture group rest
    else if group.sections.all
        (fun s => st.tracker.is_section_available s.section_id ts.day ts.slot_number) = false then
      try_lecture_slots cfg st lecture group rest
    else
      match (lec_rooms cfg).find?
          (fun room => st.tracker.is_room_available room.room_code ts.day ts.slot_number) with
      | none => try_lecture_slots cfg st lecture group rest
      | some room => some (commit_lecture st lecture group room ts)

/-- scheduler.py schedule_lectures: the `for group in level_groups` loop for
one lecture; a pair with no valid slot returns False at once. -/
def schedule_lecture_groups (cfg : SchedulerConfig) (lecture : Lecture)
    (st : SchedState) : List Group → SchedState × Bool
  | [] => (st, true)
  | group :: rest =>
    if st.tracker.has_group_taken_lecture group.group_id lecture.course_code then
      schedule_lecture_groups cfg lecture st rest
    else
      match try_lecture_slots cfg st lecture group cfg.time_slots with
      | some st2 => schedule_lecture_groups cfg lecture st2 rest
      | none => (st, false)

/-- scheduler.py schedule_lectures: the outer loop over the sorted lectures. -/
def schedule_lectures_go (cfg : SchedulerConfig) (level_groups : List Group)
    (st : SchedState) : List Lecture → SchedState × Bool
  | [] => (st, true)
  | lecture :: rest =>
    match schedule_lecture_groups cfg lecture st level_groups with
    | (st2, true) => schedule_lectures_go cfg level_groups st2 rest
    | (st2, false) => (st2, false)

/-- scheduler.py TimetableScheduler.schedule_lectures. -/
def schedule_lectures (cfg : SchedulerConfig) (st : SchedState) (level : Int)
    (lectures_data : List Lecture) : SchedState × Bool :=
  schedule_lectures_go cfg (cfg.groups.filter (fun g => decide (g.level = level))) st
    (sort_lectures lectures_data)

/-- Per-course per-(day, slot) usage counters: the course_time_slot_count
defaultdict created afresh inside schedule_labs. -/
abbrev UsageCnt := String → String × Int → Nat

/-- Incrementing course_time_slot_count[course][(day, slot)]. -/
def bumpCnt (cnt : UsageCnt) (course : String) (key : String × Int) : UsageCnt :=
  fun c k => if c = course ∧ k = key then cnt c k + 1 else cnt c k

/-- scheduler.py schedule_labs: sorted(labs_data,
key=(room_code == "", course_code)); False sorts before True. -/
def sort_labs (labs_data : List Lab) : List Lab :=
  pySorted (fun a b =>
    decide ((if a.room_code = "" then 1 else (0 : Nat)) < (if b.room_code = "" then 1 else 0) ∨
      ((if a.room_code = "" then 1 else (0 : Nat)) = (if b.room_code = "" then 1 else 0) ∧
        a.course_code ≤ b.course_code))) labs_data

/-- scheduler.py schedule_labs: committing a lab Assignment (lines 206-223);
foundation labs carry no instructor. -/
def commit_lab (st : SchedState) (lab : Lab) (sec : SectionRec) (room_code : String)
    (ts : TimeSlot) : SchedState :=
  let assignment_id := (gen_assignment_id st).1
  let st1 := (gen_assignment_id st).2
  let a : Assignment :=
    { assignment_id := assignment_id
      type := "lab"
      course_code := lab.course_code
      course_name := lab.course_name
      time_slot := ts
      room := room_code
      assigned_to := [sec.section_id] }
  { st1 with
    assignments := st1.assignments ++ [a]
    tracker := st1.tracker.assign_lab assignment_id room_code sec.section_id
      lab.course_code ts.day ts.slot_number }

/-- scheduler.py schedule_labs lines 183-201: choosing the room for one slot;
a lab whose room_code is nonempty (and not all whitespace) pins that room,
otherwise the lab rooms are shuffled and scanned first-match.  Returns the
room code (if any) and the advanced oracle counter. -/
def lab_room_pick (cfg : SchedulerConfig) (O : RandomOracle) (st : SchedState)
    (lab : Lab) (ts : TimeSlot) (k : Nat) : Option String × Nat :=
  if lab.room_code ≠ "" ∧ pyStrip lab.room_code ≠ "" then
    (if st.tracker.is_room_available lab.room_code ts.day ts.slot_number then
       some lab.room_code
     else none, k)
  else
    (((O.shuffle_rooms k (lab_rooms cfg)).find?
        (fun room => st.tracker.is_room_available room.room_code ts.day ts.slot_number)).map
      (fun room => room.room_code), k + 1)

/-- scheduler.py schedule_labs: the loop over the shuffled slots for one
(lab, section) pair. -/
def try_lab_slots (cfg : SchedulerConfig) (O : RandomOracle) (lab : Lab)
    (sec : SectionRec) (st : SchedState) (cnt : UsageCnt) :
    List TimeSlot → Nat → Option (SchedState × UsageCnt) × Nat
  | [], k => (none, k)
  | ts :: rest, k =>
    if st.tracker.is_section_available sec.section_id ts.day ts.slot_number = false then
      try_lab_slots cfg O lab sec st cnt rest k
    else if cnt lab.course_code (ts.day, ts.slot_number) ≥
        course_instructor_limit cfg lab.course_code then
      try_lab_slots cfg O lab sec st cnt rest k
    else
      match lab_room_pick cfg O st lab ts k with
      | (none, k2) => try_lab_slots cfg O lab sec st cnt rest k2
      | (some room_code, k2) =>
        (some (commit_lab st lab sec room_code ts,
               bumpCnt cnt lab.course_code (ts.day, ts.slot_number)), k2)

/-- scheduler.py schedule_labs: the `for section in level_sections` loop for
one lab; per pair the slot list is shuffled once, and a pair with no valid
slot returns False for the whole level. -/
def schedule_labs_sections (cfg : SchedulerConfig) (O : RandomOracle) (lab : Lab) :
    List SectionRec → SchedState → UsageCnt → Nat → SchedState × UsageCnt × Nat × Bool
  | [], st, cnt, k => (st, cnt, k, true)
  | sec :: rest, st, cnt, k =>
    if st.tracker.has_section_taken_lab sec.section_id lab.course_code then
      schedule_labs_sections cfg O lab rest st cnt k
    else
      match try_lab_slots cfg O lab sec st cnt (O.shuffle_slots k cfg.time_slots) (k + 1) with
      | (some (st2, cnt2), k2) => schedule_labs_sections cfg O lab rest st2 cnt2 k2
      | (none, k2) => (st, cnt, k2, false)

/-- scheduler.py schedule_labs: the outer loop over the sorted labs. -/
def schedule_labs_go (cfg : SchedulerConfig) (O : RandomOracle)
    (level_sections : List SectionRec) :
    List Lab → SchedState → UsageCnt → Nat → SchedState × UsageCnt × Nat × Bool
  | [], st, cnt, k => (st, cnt, k, true)
  | lab :: rest, st, cnt, k =>
    match schedule_labs_sections cfg O lab level_sections st cnt k with
    | (st2, cnt2, k2, true) => schedule_labs_go cfg O level_sections rest st2 cnt2 k2
    | (st2, cnt2, k2, false) => (st2, cnt2, k2, false)

/-- scheduler.py TimetableScheduler.schedule_labs. -/
def schedule_labs (cfg : SchedulerConfig) (O : RandomOracle) (st : SchedState)
    (k : Nat) (level : Int) (labs_data : List Lab) : SchedState × UsageCnt × Nat × Bool :=
  schedule_labs_go cfg O (cfg.sections.filter (fun s => decide (s.level = level)))
    (sort_labs labs_data) st (fun _ _ => 0) k

/-- scheduler.py schedule_department_lectures and schedule_graduation_project:
committing one department lecture Assignment (assigned_to is the department
group only; the tracker still marks every section of the group). -/
def commit_dept_lecture (st : SchedState) (lecture : Lecture) (dept_group : Group)
    (room_code : String) (ts : TimeSlot) : SchedState :=
  let assignment_id := (gen_assignment_id st).1
  let st1 := (gen_assignment_id st).2
  let a : Assignment :=
    { assignment_id := assignment_id
      type := "lecture"
      course_code := lecture.course_code
      course_name := lecture.course_name
      time_slot := ts
      room := room_code
      instructor := some lecture.instructor_name
      instructor_id := some lecture.instructor_id
      assigned_to := [dept_group.group_id] }
  { st1 with
    assignments := st1.assignments ++ [a]
    tracker := st1.tracker.assign_lecture assignment_id lecture.instructor_id room_code
      dept_group.group_id (dept_group.sections.map (fun s => s.section_id))
      lecture.course_code ts.day ts.slot_number }

/-- scheduler.py schedule_department_lectures: the slot loop for one lecture
(no per-section check, unlike the shared-cohort phase). -/
def try_dept_lecture_slots (cfg : SchedulerConfig) (lecture : Lecture)
    (dept_group : Group) (st : SchedState) : List TimeSlot → Option SchedState
  | [] => none
  | ts :: rest =>
    if st.tracker.is_instructor_available lecture.instructor_id ts.day ts.slot_number = false then
      try_dept_lecture_slots cfg lecture dept_group st rest
    else if st.tracker.is_group_available dept_group.group_id ts.day ts.slot_number = false then
      try_dept_lecture_slots cfg lecture dept_group st rest
    else
      match (lec_rooms cfg).find?
          (fun room => st.tracker.is_room_available room.room_code ts.day ts.slot_number) with
      | none => try_dept_lecture_slots cfg lecture dept_group st rest
      | some room => some (commit_dept_lecture st lecture dept_group room.room_code ts)

/-- scheduler.py schedule_department_lectures: the loop over lectures_data. -/
def schedule_dept_lectures_go (cfg : SchedulerConfig) (dept_group : Group)
    (st : SchedState) : List Lecture → SchedState × Bool
  | [] => (st, true)
  | lecture :: rest =>
    if st.tracker.has_group_taken_lecture dept_group.group_id lecture.course_code then
      schedule_dept_lectures_go cfg dept_group st rest
    else
      match try_dept_lecture_slots cfg lecture dept_group st cfg.time_slots with
      | some st2 => schedule_dept_lectures_go cfg dept_group st2 rest
      | none => (st, false)

/-- scheduler.py TimetableScheduler.schedule_department_lectures; a level with
no matching department group returns True untouched. -/
def schedule_department_lectures (cfg : SchedulerConfig) (st : SchedState)
    (level : Int) (department : String) (lectures_data : List Lecture) : SchedState × Bool :=
  match cfg.groups.filter
      (fun g => decide (g.level = level) && pyStrIn department g.group_id) with
  | [] => (st, true)
  | dept_group :: _ => schedule_dept_lectures_go cfg dept_group st lectures_data

/-- The extra local state of schedule_department_labs: the scheduler state, the
course_time_slot_count defaultdict and the local instructor_schedule
defaultdict(set) keyed by instructor id. -/
structure DeptLabState where
  st : SchedState
  cnt : UsageCnt
  instr_busy : String → List (String × Int)

/-- scheduler.py schedule_department_labs lines 347-378: is this time slot a
valid candidate for the pair, and with which room and usage count? -/
def dept_valid_slot? (cfg : SchedulerConfig) (d : DeptLabState) (lab : Lab)
    (qualified : List LabInstructor) (sec : SectionRec) (ts : TimeSlot) :
    Option (TimeSlot × String × Nat) :=
  if ts.day = "Saturday" then none
  else if d.st.tracker.is_section_available sec.section_id ts.day ts.slot_number = false then
    none
  else
    match (lab_rooms cfg).find?
        (fun room => d.st.tracker.is_room_available room.room_code ts.day ts.slot_number) with
    | none => none
    | some room =>
      if qualified.any (fun instructor =>
          ((d.instr_busy instructor.instructor_id).contains (ts.day, ts.slot_number)) = false) then
        some (ts, room.room_code, d.cnt lab.course_code (ts.day, ts.slot_number))
      else none

/-- scheduler.py schedule_department_labs: committing one fully staffed
department lab (lines 410-435). -/
def commit_dept_lab (d : DeptLabState) (lab : Lab) (sec : SectionRec)
    (instructor : LabInstructor) (room_code : String) (ts : TimeSlot) : DeptLabState :=
  let assignment_id := (gen_assignment_id d.st).1
  let st1 := (gen_assignment_id d.st).2
  let a : Assignment :=
    { assignment_id := assignment_id
      type := "lab"
      course_code := lab.course_code
      course_name := lab.course_name
      time_slot := ts
      room := room_code
      assigned_to := [sec.section_id]
      lab_instructor_id := some instructor.instructor_id
      lab_instructor_name := some instructor.instructor_name }
  { st := { st1 with
      assignments := st1.assignments ++ [a]
      tracker := st1.tracker.assign_lab assignment_id room_code sec.section_id
        lab.course_code ts.day ts.slot_number }
    cnt := bumpCnt d.cnt lab.course_code (ts.day, ts.slot_number)
    instr_busy := fun i =>
      if i = instructor.instructor_id then d.instr_busy i ++ [(ts.day, ts.slot_number)]
      else d.instr_busy i }

/-- scheduler.py schedule_department_labs: one (lab, section) pair.  A pair
whose section already has the lab, or with no valid candidate, or whose chosen
slot has no free qualified instructor, is skipped (the state is unchanged). -/
def dept_lab_pair (cfg : SchedulerConfig) (O : RandomOracle) (lab : Lab)
    (qualified : List LabInstructor) (d : DeptLabState) (k : Nat) (sec : SectionRec) :
    DeptLabState × Nat :=
  if d.st.tracker.has_section_taken_lab sec.section_id lab.course_code then (d, k)
  else
    match cfg.time_slots.filterMap (dept_valid_slot? cfg d lab qualified sec) with
    | [] => (d, k)
    | c :: cs =>
      let chosen := O.select_candidate k c cs
      match qualified.find? (fun instructor =>
          ((d.instr_busy instructor.instructor_id).contains
            (chosen.1.day, chosen.1.slot_number)) = false) with
      | none => (d, k + 1)
      | some instructor =>
        (commit_dept_lab d lab sec instructor chosen.2.1 chosen.1, k + 1)

/-- scheduler.py schedule_department_labs: the loop over the department's
sections for one lab. -/
def dept_lab_sections (cfg : SchedulerConfig) (O : RandomOracle) (lab : Lab)
    (qualified : List LabInstructor) : List SectionRec → DeptLabState → Nat → DeptLabState × Nat
  | [], d, k => (d, k)
  | sec :: rest, d, k =>
    match dept_lab_pair cfg O lab qualified d k sec with
    | (d2, k2) => dept_lab_sections cfg O lab qualified rest d2 k2

/-- scheduler.py schedule_department_labs: the loop over labs_data, computing
each lab's qualified instructor pool from the roster. -/
def dept_lab_courses (cfg : SchedulerConfig) (O : RandomOracle)
    (dept_sections : List SectionRec) : List Lab → DeptLabState → Nat → DeptLabState × Nat
  | [], d, k => (d, k)
  | lab :: rest, d, k =>
    match dept_lab_sections cfg O lab
        (cfg.lab_instructors.filter (fun instructor =>
          instructor.qualified_labs.contains lab.course_code)) dept_sections d k with
    | (d2, k2) => dept_lab_courses cfg O dept_sections rest d2 k2

/-- scheduler.py TimetableScheduler.schedule_department_labs; always returns
True (degraded mode: unplaceable pairs are only logged). -/
def schedule_department_labs (cfg : SchedulerConfig) (O : RandomOracle)
    (st : SchedState) (k : Nat) (level : Int) (department : String)
    (labs_data : List Lab) : SchedState × Nat × Bool :=
  let dept_sections := cfg.sections.filter
    (fun s => decide (s.level = level) && decide (s.department = some department))
  if dept_sections.isEmpty then (st, k, true)
  else
    match dept_lab_courses cfg O dept_sections labs_data ⟨st, fun _ _ => 0, fun _ => []⟩ k with
    | (d2, k2) => (d2.st, k2, true)

/-- scheduler.py schedule_graduation_project: days_to_try. -/
def gp_days : List String :=
  ["Sunday", "Monday", "Tuesday", "Wednesday", "Thursday"]

/-- scheduler.py schedule_graduation_project lines 493-513: committing one
Assignment per slot of the accepted day, all sharing course, instructor and
room (each commit is the department-lecture commit). -/
def commit_gp_slots (lecture : Lecture) (dept_group : Group) (room_code : String) :
    List TimeSlot → SchedState → SchedState
  | [], st => st
  | ts :: rest, st =>
    commit_gp_slots lecture dept_group room_code rest
      (commit_dept_lecture st lecture dept_group room_code ts)

/-- scheduler.py schedule_graduation_project: the `for day in days_to_try`
loop; an accepted day commits all four slots in one pass, and exhausting the
day list returns False with nothing committed. -/
def gp_try_days (cfg : SchedulerConfig) (lecture : Lecture) (dept_group : Group)
    (st : SchedState) : List String → SchedState × Bool
  | [] => (st, false)
  | day :: rest =>
    let day_slots := cfg.time_slots.filter (fun ts => decide (ts.day = day))
    if day_slots.length ≠ 4 then gp_try_days cfg lecture dept_group st rest
    else if day_slots.all (fun ts =>
        st.tracker.is_group_available dept_group.group_id ts.day ts.slot_number) = false then
      gp_try_days cfg lecture dept_group st rest
    else if day_slots.all (fun ts =>
        st.tracker.is_instructor_available lecture.instructor_id ts.day ts.slot_number) = false then
      gp_try_days cfg lecture dept_group st rest
    else
      match (lec_rooms cfg).find? (fun room => day_slots.all (fun ts =>
          st.tracker.is_room_available room.room_code ts.day ts.slot_number)) with
      | none => gp_try_days cfg lecture dept_group st rest
      | some room =>
        (commit_gp_slots lecture dept_group room.room_code day_slots st, true)

/-- scheduler.py TimetableScheduler.schedule_graduation_project.  A department
with no sections returns True untouched; sections without a matching group hit
`[...][0]` on an empty list, a Python IndexError modelled as none. -/
def schedule_graduation_project (cfg : SchedulerConfig) (st : SchedState)
    (level : Int) (department : String) (gp_lecture : Lecture) :
    Option (SchedState × Bool) :=
  let dept_sections := cfg.sections.filter
    (fun s => decide (s.level = level) && decide (s.department = some department))
  if dept_sections.isEmpty then some (st, true)
  else
    match cfg.groups.filter
        (fun g => decide (g.level = level) && pyStrIn department g.group_id) with
    | [] => none
    | dept_group :: _ => some (gp_try_days cfg gp_lecture dept_group st gp_days)

/-- scheduler.py generate_schedule: the fixed department list. -/
def departments : List String := ["CSC", "CNC", "BIF", "AID"]

/-- scheduler.py generate_schedule: the level-3 department loop. -/
def run_l3_depts (cfg : SchedulerConfig) (O : RandomOracle) :
    List String → SchedState → Nat → SchedState × Nat × Bool
  | [], st, k => (st, k, true)
  | dept :: rest, st, k =>
    match schedule_department_lectures cfg st 3 dept (cfg.level_3_data dept).lectures with
    | (st2, false) => (st2, k, false)
    | (st2, true) =>
      match schedule_department_labs cfg O st2 k 3 dept (cfg.level_3_data dept).labs with
      | (st3, k2, false) => (st3, k2, false)
      | (st3, k2, true) => run_l3_depts cfg O rest st3 k2

/-- scheduler.py generate_schedule lines 594-607: the graduation-project step
of one level-4 department (run only when a GP lecture record exists). -/
def run_l4_gp (cfg : SchedulerConfig) (st : SchedState) (dept : String)
    (gp_lectures : List Lecture) : Option (SchedState × Bool) :=
  match gp_lectures with
  | [] => some (st, true)
  | gp :: _ => schedule_graduation_project cfg st 4 dept gp

/-- scheduler.py generate_schedule: the level-4 department loop (regular
lectures, then the graduation project, then department labs). -/
def run_l4_depts (cfg : SchedulerConfig) (O : RandomOracle) :
    List String → SchedState → Nat → Option (SchedState × Nat × Bool)
  | [], st, k => some (st, k, true)
  | dept :: rest, st, k =>
    match schedule_department_lectures cfg st 4 dept
        ((cfg.level_4_data dept).lectures.filter
          (fun l => l.is_graduation_project = false)) with
    | (st2, false) => some (st2, k, false)
    | (st2, true) =>
      match run_l4_gp cfg st2 dept
          ((cfg.level_4_data dept).lectures.filter (fun l => l.is_graduation_project)) with
      | none => none
      | some (st3, false) => some (st3, k, false)
      | some (st3, true) =>
        match schedule_department_labs cfg O st3 k 4 dept (cfg.level_4_data dept).labs with
        | (st4, k2, false) => some (st4, k2, false)
        | (st4, k2, true) => run_l4_depts cfg O rest st4 k2

/-- scheduler.py TimetableScheduler.generate_schedule: all phases in order,
starting from the fresh state built in __init__; none models the IndexError
escape of schedule_graduation_project. -/
def generate_schedule (cfg : SchedulerConfig) (O : RandomOracle) :
    Option (SchedState × Bool) :=
  match schedule_lectures cfg init_state 1 cfg.level_1_data.lectures with
  | (st1, false) => some (st1, false)
  | (st1, true) =>
  match schedule_lectures cfg st1 2 cfg.level_2_data.lectures with
  | (st2, false) => some (st2, false)
  | (st2, true) =>
  match schedule_labs cfg O st2 0 1 cfg.level_1_data.labs with
  | (st3, _, _, false) => some (st3, false)
  | (st3, _, k3, true) =>
  match schedule_labs cfg O st3 k3 2 cfg.level_2_data.labs with
  | (st4, _, _, false) => some (st4, false)
  | (st4, _, k4, true) =>
  match run_l3_depts cfg O departments st4 k4 with
  | (st5, _, false) => some (st5, false)
  | (st5, k5, true) =>
  match run_l4_depts cfg O departments st5 k5 with
  | none => none
  | some (st6, _, b) => some (st6, b)

/-- data_loader.py generate_time_slots: TIME_SLOTS_CONFIG as
(slot_number, start_time, end_time). -/
def TIME_SLOTS_CONFIG : List (Int × String × String) :=
  [(1, "9:00", "10:30"), (2, "10:45", "12:15"), (3, "12:30", "14:00"), (4, "14:15", "15:45")]

/-- data_loader.py generate_time_slots: DAYS (Sunday to Thursday only). -/
def DAYS : List String :=
  ["Sunday", "Monday", "Tuesday", "Wednesday", "Thursday"]

/-- data_loader.py generate_time_slots (src/backend/app and src/Backend agree):
the closed catalog of 5 days x 4 slots. -/
def generate_time_slots : List TimeSlot :=
  DAYS.flatMap (fun day => TIME_SLOTS_CONFIG.map (fun c =>
    { id := (day.take 3).toUpper ++ "-" ++ toString c.1
      day := day
      slot_number := c.1
      start_time := c.2.1
      end_time := c.2.2 }))

/-- Insertion-ordered grouping: the defaultdict(list) pattern of
validators.py (append under a key, first occurrence fixes the key's place). -/
def upsertVal {K V : Type} [DecidableEq K] (k : K) (v : V) :
    List (K × List V) → List (K × List V)
  | [] => [(k, [v])]
  | (k2, vs) :: rest =>
    if k2 = k then (k2, vs ++ [v]) :: rest else (k2, vs) :: upsertVal k v rest

/-- Collect a keyed list into insertion-ordered groups (defaultdict(list)). -/
def groupByKey {K V : Type} [DecidableEq K] (pairs : List (K × V)) : List (K × List V) :=
  pairs.foldl (fun acc kv => upsertVal kv.1 kv.2 acc) []

/-- Python set(list): deduplicate keeping first occurrences (iteration order of
small string sets is abstracted to insertion order). -/
def pySetOfList (l : List String) : List String :=
  l.foldl (fun acc x => pySetAdd x acc) []

/-- Python == on two sets modelled as lists: same elements. -/
def pySetEq (a b : List String) : Bool :=
  a.all (fun x => b.contains x) && b.all (fun x => a.contains x)

/-- The error strings built by validators.py validate_schedule; constructors
carry the interpolated values (text rendering is not modelled). -/
inductive ValidationError where
  | instructorDoubleBooked (instructor_id : Int) (day : String) (slot : Int)
      (assignment_ids : List String)
  | roomDoubleBooked (room day : String) (slot : Int) (assignment_ids : List String)
  | groupMissingLectures (group_id : String) (missing : List String)
  | sectionMissingLabs (section_id : String) (missing : List String)
deriving DecidableEq

/-- The fields of the (two-level) TimetableScheduler of src/Backend read by
validators.py validate_schedule. -/
structure OldScheduler where
  assignments : List Assignment
  groups : List Group
  sections : List SectionRec
  level_1_data : LevelData
  level_2_data : LevelData
  tracker : ScheduleTracker

/-- validators.py validate_schedule: a pure pass over the committed state
producing (len(errors) == 0, errors).  The source only reads the scheduler;
the embedding therefore consumes the state and returns the report alone. -/
def validate_schedule (sch : OldScheduler) : Bool × List ValidationError :=
  let instructor_errors :=
    (groupByKey (sch.assignments.filterMap (fun a =>
      if pyTruthyInt a.instructor_id then
        some ((a.instructor_id.getD 0, a.time_slot.day, a.time_slot.slot_number),
          a.assignment_id)
      else none))).filterMap (fun kv =>
      if kv.2.length > 1 then
        some (ValidationError.instructorDoubleBooked kv.1.1 kv.1.2.1 kv.1.2.2 kv.2)
      else none)
  let room_errors :=
    (groupByKey (sch.assignments.map (fun a =>
      ((a.room, a.time_slot.day, a.time_slot.slot_number), a.assignment_id)))).filterMap
      (fun kv =>
      if kv.2.length > 1 then
        some (ValidationError.roomDoubleBooked kv.1.1 kv.1.2.1 kv.1.2.2 kv.2)
      else none)
  let group_errors := sch.groups.filterMap (fun g =>
    let expected := pySetOfList
      ((if g.level = 1 then sch.level_1_data.lectures else sch.level_2_data.lectures).map
        (fun l => l.course_code))
    let assigned := sch.tracker.group_lectures_assigned g.group_id
    if pySetEq assigned expected = false then
      some (ValidationError.groupMissingLectures g.group_id
        (expected.filter (fun c => assigned.contains c = false)))
    else none)
  let section_errors := sch.sections.filterMap (fun s =>
    let expected := pySetOfList
      ((if s.level = 1 then sch.level_1_data.labs else sch.level_2_data.labs).map
        (fun l => l.course_code))
    let assigned := sch.tracker.section_labs_assigned s.section_id
    if pySetEq assigned expected = false then
      some (ValidationError.sectionMissingLabs s.section_id
        (expected.filter (fun c => assigned.contains c = false)))
    else none)
  let errors := instructor_errors ++ room_errors ++ group_errors ++ section_errors
  (decide (errors.length = 0), errors)

/-- instructor_assignment.py: the instructor pool dict built in order from the
roster (later duplicate ids overwrite earlier ones). -/
def build_instructor_pool (lab_instructors : List LabInstructor) :
    String → Option LabInstructor :=
  lab_instructors.foldl
    (fun pool instructor => fun i =>
      if i = instructor.instructor_id then some instructor else pool i)
    (fun _ => none)

/-- instructor_assignment.py count_qualified_instructors: how many roster
instructors are qualified for this lab's course. -/
def count_qualified_instructors (lab_instructors : List LabInstructor)
    (lab_assignment : Assignment) : Nat :=
  (lab_instructors.filter (fun instructor =>
    instructor.qualified_labs.contains lab_assignment.course_code)).length

/-- instructor_assignment.py: sorted(lab_assignments,
key=count_qualified_instructors) — most constrained first. -/
def sort_labs_by_constraint (lab_instructors : List LabInstructor)
    (lab_assignments : List Assignment) : List Assignment :=
  pySorted (fun a b =>
    decide (count_qualified_instructors lab_instructors a ≤
      count_qualified_instructors lab_instructors b)) lab_assignments

/-- instructor_assignment.py: sorted(qualified, key=current hours) —
load balancing, least loaded first. -/
def sort_by_hours (tracker : InstructorTracker) (qualified : List LabInstructor) :
    List LabInstructor :=
  pySorted (fun a b =>
    decide (tracker.instructor_hours a.instructor_id ≤
      tracker.instructor_hours b.instructor_id)) qualified

/-- src/Backend/instructor_assignment.py: the strict loop over the sorted labs.
The first lab with no passing candidate aborts (returns False); labs bound so
far keep their instructor fields (Python mutates the Assignment objects). -/
def assign_pass_strict_go (sched_tracker : ScheduleTracker)
    (lab_instructors : List LabInstructor) (session_hours : Rat) :
    List Assignment → InstructorTracker → List Assignment × InstructorTracker × Bool
  | [], tracker => ([], tracker, true)
  | lab :: rest, tracker =>
    match (sort_by_hours tracker (lab_instructors.filter (fun instructor =>
        instructor.qualified_labs.contains lab.course_code))).find?
        (fun instructor =>
          (can_assign_instructor_to_lab instructor lab tracker sched_tracker session_hours).1) with
    | none => (lab :: rest, tracker, false)
    | some instructor =>
      match assign_pass_strict_go sched_tracker lab_instructors session_hours rest
          (tracker.assign instructor.instructor_id lab.time_slot.day
            lab.time_slot.slot_number lab.assignment_id session_hours) with
      | (labs2, tracker2, b) =>
        ({ lab with lab_instructor_id := some instructor.instructor_id
                    lab_instructor_name := some instructor.instructor_name } :: labs2,
         tracker2, b)

/-- src/Backend/instructor_assignment.py assign_instructors_to_labs (strict
policy): all labs, sorted most-constrained-first, processed over a fresh
tracker seeded with the instructor pool. -/
def assign_instructors_to_labs_strict (scheduler_assignments : List Assignment)
    (sched_tracker : ScheduleTracker) (lab_instructors : List LabInstructor)
    (session_hours : Rat := 3/2) : List Assignment × InstructorTracker × Bool :=
  assign_pass_strict_go sched_tracker lab_instructors session_hours
    (sort_labs_by_constraint lab_instructors
      (scheduler_assignments.filter (fun a => a.type = "lab")))
    { InstructorTracker.init with instructors := build_instructor_pool lab_instructors }

/-- src/backend/app/instructor_assignment.py: the tolerant loop; a lab
exhausting its candidates is left unstaffed and the loop continues. -/
def assign_pass_tolerant_go (sched_tracker : ScheduleTracker)
    (lab_instructors : List LabInstructor) (session_hours : Rat) :
    List Assignment → InstructorTracker → List Assignment × InstructorTracker
  | [], tracker => ([], tracker)
  | lab :: rest, tracker =>
    match (sort_by_hours tracker (lab_instructors.filter (fun instructor =>
        instructor.qualified_labs.contains lab.course_code))).find?
        (fun instructor =>
          (can_assign_instructor_to_lab instructor lab tracker sched_tracker session_hours).1) with
    | none =>
      match assign_pass_tolerant_go sched_tracker lab_instructors session_hours rest tracker with
      | (labs2, tracker2) => (lab :: labs2, tracker2)
    | some instructor =>
      match assign_pass_tolerant_go sched_tracker lab_instructors session_hours rest
          (tracker.assign instructor.instructor_id lab.time_slot.day
            lab.time_slot.slot_number lab.assignment_id session_hours) with
      | (labs2, tracker2) =>
        ({ lab with lab_instructor_id := some instructor.instructor_id
                    lab_instructor_name := some instructor.instructor_name } :: labs2,
         tracker2)

/-- src/backend/app/instructor_assignment.py assign_instructors_to_labs
(tolerant policy): labs staffed inline during scheduling are pre-registered
into the tracker, the remaining labs are processed most-constrained-first, the
count of still-unstaffed labs is reported and the pass returns True. -/
def assign_instructors_to_labs_tolerant (scheduler_assignments : List Assignment)
    (sched_tracker : ScheduleTracker) (lab_instructors : List LabInstructor)
    (session_hours : Rat := 3/2) : List Assignment × InstructorTracker × Nat × Bool :=
  let all_lab_assignments := scheduler_assignments.filter (fun a => a.type = "lab")
  let already_assigned := all_lab_assignments.filter (fun a => pyTruthyStr a.lab_instructor_id)
  let todo := all_lab_assignments.filter (fun a => pyTruthyStr a.lab_instructor_id = false)
  let tracker1 := already_assigned.foldl
    (fun tracker lab => tracker.assign (lab.lab_instructor_id.getD "") lab.time_slot.day
      lab.time_slot.slot_number lab.assignment_id session_hours)
    { InstructorTracker.init with instructors := build_instructor_pool lab_instructors }
  let r := assign_pass_tolerant_go sched_tracker lab_instructors session_hours
    (sort_labs_by_constraint lab_instructors todo) tracker1
  (r.1, r.2,
   (r.1.filter (fun lab => pyTruthyStr lab.lab_instructor_name = false)).length, true)

/-- All four acceptance constraints of schedule_lectures at one time slot
(instructor, group, every section, and some lecture room free). -/
def lecture_slot_ok (cfg : SchedulerConfig) (st : SchedState) (lecture : Lecture)
    (group : Group) (ts : TimeSlot) : Bool :=
  st.tracker.is_instructor_available lecture.instructor_id ts.day ts.slot_number
  && st.tracker.is_group_available group.group_id ts.day ts.slot_number
  && group.sections.all (fun s => st.tracker.is_section_available s.section_id ts.day ts.slot_number)
  && (lec_rooms cfg).any (fun room => st.tracker.is_room_available room.room_code ts.day ts.slot_number)

/-- The first slot in catalog order passing all lecture constraints, paired
with the first free lecture room there (the spec reading of the
schedule_lectures inner loop). -/
def first_valid_slot (cfg : SchedulerConfig) (st : SchedState) (lecture : Lecture)
    (group : Group) (slots : List TimeSlot) : Option (TimeSlot × Room) :=
  (slots.find? (fun ts => lecture_slot_ok cfg st lecture group ts)).bind (fun ts =>
    ((lec_rooms cfg).find?
      (fun room => st.tracker.is_room_available room.room_code ts.day ts.slot_number)).map
      (fun room => (ts, room)))

/-- The acceptance test of schedule_graduation_project for one day: four slots
exist, and group, instructor and some lecture room are free across all of
them. -/
def gp_day_ok (cfg : SchedulerConfig) (st : SchedState) (lecture : Lecture)
    (dept_group : Group) (day : String) : Bool :=
  let day_slots := cfg.time_slots.filter (fun ts => decide (ts.day = day))
  decide (day_slots.length = 4)
  && day_slots.all (fun ts =>
      st.tracker.is_group_available dept_group.group_id ts.day ts.slot_number)
  && day_slots.all (fun ts =>
      st.tracker.is_instructor_available lecture.instructor_id ts.day ts.slot_number)
  && (lec_rooms cfg).any (fun room => day_slots.all (fun ts =>
      st.tracker.is_room_available room.room_code ts.day ts.slot_number))

/-- The (room, day, slot) resource identity of an Assignment. -/
def Assignment.roomKey (a : Assignment) : String × String × Int :=
  (a.room, a.time_slot.day, a.time_slot.slot_number)

/-- Data-model invariant 1: no two Assignments share (room, day, slot). -/
def NoRoomClash (l : List Assignment) : Prop :=
  l.Pairwise (fun a b => a.roomKey ≠ b.roomKey)

/-- The inductive invariant carried through every phase: the committed
Assignments are clash-free and each one's room key is marked busy in the
tracker. -/
def RoomOk (st : SchedState) : Prop :=
  NoRoomClash st.assignments ∧
  ∀ a ∈ st.assignments,
    st.tracker.room_schedule a.room a.time_slot.day a.time_slot.slot_number ≠ none

/-- Well-formedness of the time-slot catalog from the data model: (day,
slot_number) is the identity of a TimeSlot, so the catalog has no duplicate
identities (generate_time_slots satisfies this). -/
def TSKeys (l : List TimeSlot) : Prop :=
  l.Pairwise (fun t1 t2 => (t1.day, t1.slot_number) ≠ (t2.day, t2.slot_number))

/-- How many lab Assignments of the course sit at the given (day, slot). -/
def countCourseSlot (l : List Assignment) (course : String) (key : String × Int) : Nat :=
  (l.filter (fun a => decide (a.type = "lab") && decide (a.course_code = course)
    && decide ((a.time_slot.day, a.time_slot.slot_number) = key))).length

/-- The per-course instructor capacity in the words of the specification: the
count of roster instructors qualified for the course code, with the default 2
when no instructor data exists for the course. -/
def claim_capacity (cfg : SchedulerConfig) (course : String) : Nat :=
  let n := (cfg.lab_instructors.filter
    (fun instructor => instructor.qualified_labs.contains course)).length
  if n = 0 then 2 else n

/-- An empty catalog: the smallest configuration on which a full scheduling
run reports success. -/
def cfgEmpty : SchedulerConfig where
  rooms := []
  groups := []
  sections := []
  time_slots := []
  level_1_data := ⟨[], []⟩
  level_2_data := ⟨[], []⟩
  level_3_data := fun _ => ⟨[], []⟩
  level_4_data := fun _ => ⟨[], []⟩
  lab_instructors := []

/-- A deterministic oracle: shuffles are identities, selection takes the head
of the candidate list. -/
def oracleId : RandomOracle where
  shuffle_slots := fun _ l => l
  shuffle_rooms := fun _ l => l
  select_candidate := fun _ c _ => c

/-- The Assignment record built by commit_dept_lecture (named so proofs can
speak about the appended element). -/
def dept_lecture_assignment (st : SchedState) (lecture : Lecture) (dept_group : Group)
    (room_code : String) (ts : TimeSlot) : Assignment :=
  { assignment_id := (gen_assignment_id st).1
    type := "lecture"
    course_code := lecture.course_code
    course_name := lecture.course_name
    time_slot := ts
    room := room_code
    instructor := some lecture.instructor_name
    instructor_id := some lecture.instructor_id
    assigned_to := [dept_group.group_id] }

/-- Witness fixture: the level-4 CSC section of the graduation-project run. -/
def secGP : SectionRec :=
  { section_id := "L4-CSC-S1", level := 4, group_number := 0, section_number := 1,
    group_id := "L4-CSC", department := some "CSC" }

/-- Witness fixture: the level-4 CSC department group. -/
def groupGP : Group :=
  { group_id := "L4-CSC", level := 4, group_number := 0, sections := [secGP] }

/-- Witness fixture: a graduation-project lecture record. -/
def lecGP : Lecture :=
  { course_code := "GP400", course_name := "Graduation Project",
    instructor_name := "Prof. G", instructor_id := 50, level := 4,
    is_graduation_project := true }

/-- Witness fixture: the four Sunday time slots. -/
def sundaySlots : List TimeSlot :=
  [{ id := "SUN-1", day := "Sunday", slot_number := 1, start_time := "9:00", end_time := "10:30" },
   { id := "SUN-2", day := "Sunday", slot_number := 2, start_time := "10:45", end_time := "12:15" },
   { id := "SUN-3", day := "Sunday", slot_number := 3, start_time := "12:30", end_time := "14:00" },
   { id := "SUN-4", day := "Sunday", slot_number := 4, start_time := "14:15", end_time := "15:45" }]

/-- Witness fixture: a one-department catalog on which the graduation-project
phase succeeds on Sunday. -/
def cfgGP : SchedulerConfig where
  rooms := [{ room_code := "H1", room_type := "lec" }]
  groups := [groupGP]
  sections := [secGP]
  time_slots := sundaySlots
  level_1_data := ⟨[], []⟩
  level_2_data := ⟨[], []⟩
  level_3_data := fun _ => ⟨[], []⟩
  level_4_data := fun _ => ⟨[], []⟩
  lab_instructors := []

/-- The Assignment record built by commit_dept_lab (named so proofs can speak
about the appended element). -/
def dept_lab_assignment (d : DeptLabState) (lab : Lab) (sec : SectionRec)
    (instructor : LabInstructor) (room_code : String) (ts : TimeSlot) : Assignment :=
  { assignment_id := (gen_assignment_id d.st).1
    type := "lab"
    course_code := lab.course_code
    course_name := lab.course_name
    time_slot := ts
    room := room_code
    assigned_to := [sec.section_id]
    lab_instructor_id := some instructor.instructor_id
    lab_instructor_name := some instructor.instructor_name }

/-- Witness fixture: an unlimited-hours TA qualified for CSC111. -/
def instr2 : LabInstructor :=
  { instructor_id := "TA1", instructor_name := "TA One",
    qualified_labs := ["CSC111"], max_hours_per_week := 0 }

/-- Witness fixture: an instructor tracker seeded with the one-TA pool. -/
def poolTrW : InstructorTracker :=
  { InstructorTracker.init with instructors := build_instructor_pool [instr2] }

/-- Witness fixture: a fresh department-lab loop state over the empty
scheduler state. -/
def dlsW : DeptLabState :=
  ⟨init_state, fun _ _ => 0, fun _ => []⟩

/-- Witness fixture: a room-flexible lab record. -/
def labX : Lab :=
  { course_code := "CSC111", course_name := "Fundamentals of Programming",
    room_code := "", level := 3 }

/-- The Assignment record built by commit_lecture (named so proofs can speak
about the appended element). -/
def lecture_assignment (st : SchedState) (lecture : Lecture) (group : Group)
    (room : Room) (ts : TimeSlot) : Assignment :=
  { assignment_id := (gen_assignment_id st).1
    type := "lecture"
    course_code := lecture.course_code
    course_name := lecture.course_name
    time_slot := ts
    room := room.room_code
    instructor := some lecture.instructor_name
    instructor_id := some lecture.instructor_id
    assigned_to := [group.group_id] ++ group.sections.map (fun s => s.section_id) }

/-- The Assignment record built by commit_lab (named so proofs can speak about
the appended element). -/
def lab_assignment (st : SchedState) (lab : Lab) (sec : SectionRec)
    (room_code : String) (ts : TimeSlot) : Assignment :=
  { assignment_id := (gen_assignment_id st).1
    type := "lab"
    course_code := lab.course_code
    course_name := lab.course_name
    time_slot := ts
    room := room_code
    assigned_to := [sec.section_id] }

/-- The usage counters advanced by exactly the lab Assignments appended. -/
def cntDelta (cnt cnt2 : UsageCnt) (new : List Assignment) : Prop :=
  ∀ course key, cnt2 course key = cnt course key + countCourseSlot new course key

/-- Every usage counter is within the per-course instructor limit. -/
def cntBound (cfg : SchedulerConfig) (cnt : UsageCnt) : Prop :=
  ∀ course key, cnt course key ≤ course_instructor_limit cfg course

/-- Witness fixture: a sectionless level-1 group. -/
def grpW : Group :=
  { group_id := "L1-G1", level := 1, group_number := 1, sections := [] }

/-- Witness fixture: a level-1 lecture record. -/
def lecW : Lecture :=
  { course_code := "MTH111", course_name := "Math 1", instructor_name := "Prof. A",
    instructor_id := 1, level := 1 }

/-- Witness fixture: a catalog with time slots but no rooms, on which every
lecture placement fails. -/
def cfgNoRoom : SchedulerConfig where
  rooms := []
  groups := [grpW]
  sections := []
  time_slots := sundaySlots
  level_1_data := ⟨[lecW], []⟩
  level_2_data := ⟨[], []⟩
  level_3_data := fun _ => ⟨[], []⟩
  level_4_data := fun _ => ⟨[], []⟩
  lab_instructors := []

/-- Witness fixture: the result of the graduation-project phase on the Sunday
catalog (extracted so closed statements can name its parts). -/
def gpResW : SchedState × Bool :=
  (schedule_graduation_project cfgGP init_state 4 "CSC" lecGP).getD (init_state, false)

/-- Witness fixtures for the constraint predicate: an instructor sitting at
exactly their weekly maximum. -/
def instrW : LabInstructor :=
  { instructor_id := "1", instructor_name := "Dr W", qualified_labs := ["CSC111"],
    max_hours_per_week := 3 }

/-- Witness fixture: a placed lab Assignment offered to instrW. -/
def labW : Assignment :=
  { assignment_id := "A0001", type := "lab", course_code := "CSC111",
    course_name := "Fundamentals of Programming",
    time_slot := { id := "SUN-1", day := "Sunday", slot_number := 1,
                   start_time := "9:00", end_time := "10:30" },
    room := "B7.f1.04", assigned_to := ["L1-G1-S1"] }

/-- Witness fixture: an instructor tracker in which instrW has accumulated
exactly their maximum hours and is otherwise free. -/
def itrW : InstructorTracker :=
  { instructor_schedule := fun _ _ _ => none
    instructor_hours := fun i => if i = "1" then 3 else 0
    instructors := fun i => if i = "1" then some instrW else none }

/-- C10: for the InstructorTracker, unassign exactly inverts assign — after
assign(i, d, s, aid, h) followed by unassign(i, d, s, h) the instructor is
available again at (d, s), the accumulated hours return to their prior value,
and every other instructor's schedule and hours are untouched. -/
theorem C10_unassign_inverts_assign (t : InstructorTracker) (i d : String) (s : Int)
    (aid : String) (h : Rat) :
    ((t.assign i d s aid h).unassign i d s h).is_available i d s = true
    ∧ ((t.assign i d s aid h).unassign i d s h).instructor_hours i = t.instructor_hours i
    ∧ ∀ j, j ≠ i →
        (∀ d2 s2, ((t.assign i d s aid h).unassign i d s h).instructor_schedule j d2 s2
          = t.instructor_schedule j d2 s2)
        ∧ ((t.assign i d s aid h).unassign i d s h).instructor_hours j
          = t.instructor_hours j := by
  refine ⟨?_, ?_, ?_⟩
  · simp [InstructorTracker.assign, InstructorTracker.unassign,
      InstructorTracker.is_available]
  · simp [InstructorTracker.assign, InstructorTracker.unassign]
  · intro j hj
    constructor
    · intro d2 s2
      simp [InstructorTracker.assign, InstructorTracker.unassign, hj]
    · simp [InstructorTracker.assign, InstructorTracker.unassign, hj]

/-- Witness for C10 at a concrete tracker, slot and bystander instructor. -/
theorem C10_unassign_inverts_assign_witness :
    ((InstructorTracker.init.assign "T1" "Sunday" 1 "A0001" (3/2)).unassign
        "T1" "Sunday" 1 (3/2)).is_available "T1" "Sunday" 1 = true
    ∧ ((InstructorTracker.init.assign "T1" "Sunday" 1 "A0001" (3/2)).unassign
        "T1" "Sunday" 1 (3/2)).instructor_hours "T1"
      = InstructorTracker.init.instructor_hours "T1"
    ∧ ((InstructorTracker.init.assign "T1" "Sunday" 1 "A0001" (3/2)).unassign
        "T1" "Sunday" 1 (3/2)).instructor_schedule "T2" "Monday" 2
      = InstructorTracker.init.instructor_schedule "T2" "Monday" 2
    ∧ ((InstructorTracker.init.assign "T1" "Sunday" 1 "A0001" (3/2)).unassign
        "T1" "Sunday" 1 (3/2)).instructor_hours "T2"
      = InstructorTracker.init.instructor_hours "T2" := by
  have H := C10_unassign_inverts_assign InstructorTracker.init "T1" "Sunday" 1 "A0001" (3/2)
  exact ⟨H.1, H.2.1, (H.2.2 "T2" (by decide)).1 "Monday" 2, (H.2.2 "T2" (by decide)).2⟩

/-- C9: the Validator is pure and idempotent — validate_schedule is a function
of the committed state alone (the source performs only reads; defaultdict
autovivification is invisible under the dict-as-total-function view), running
it twice yields identical results, and its boolean is True exactly when its
error list is empty. -/
theorem C9_validator_idempotent_pure (sch : OldScheduler) :
    validate_schedule sch = validate_schedule sch
    ∧ ((validate_schedule sch).1 = true ↔ (validate_schedule sch).2 = []) := by
  refine ⟨rfl, ?_⟩
  simp [validate_schedule]

/-- The branch structure of constraints.py collapses to a four-way chain: the
cross-role try/except block rejects exactly when lecture_conflict_free is
false. -/
theorem can_assign_eq (instructor : LabInstructor) (la : Assignment)
    (it : InstructorTracker) (st : ScheduleTracker) (h : Rat) :
    can_assign_instructor_to_lab instructor la it st h =
      if it.is_qualified instructor.instructor_id la.course_code = false then
        (false, Reason.notQualified instructor.instructor_name la.course_code)
      else if it.is_available instructor.instructor_id la.time_slot.day
          la.time_slot.slot_number = false then
        (false, Reason.alreadyTeaching instructor.instructor_name
          la.time_slot.day la.time_slot.slot_number)
      else if lecture_conflict_free st instructor.instructor_id la.time_slot.day
          la.time_slot.slot_number = false then
        (false, Reason.lectureConflict instructor.instructor_name)
      else capacity_step instructor it h := by
  cases hq : it.is_qualified instructor.instructor_id la.course_code
  · simp [can_assign_instructor_to_lab, hq]
  · cases hav : it.is_available instructor.instructor_id la.time_slot.day
        la.time_slot.slot_number
    · simp [can_assign_instructor_to_lab, hq, hav]
    · cases hpi : pyInt? instructor.instructor_id with
      | none => simp [can_assign_instructor_to_lab, lecture_conflict_free, hq, hav, hpi]
      | some lid =>
        by_cases h100 : lid < 100
        · cases hsched : st.is_instructor_available lid la.time_slot.day
              la.time_slot.slot_number
          · simp [can_assign_instructor_to_lab, lecture_conflict_free, hq, hav, hpi,
              h100, hsched]
          · simp [can_assign_instructor_to_lab, lecture_conflict_free, hq, hav, hpi,
              h100, hsched]
        · simp [can_assign_instructor_to_lab, lecture_conflict_free, hq, hav, hpi, h100]

/-- C2: can_assign_instructor_to_lab allows exactly when qualification,
availability, cross-role lecture-slot freedom (numeric ids below 100) and
capacity all hold; the rules are checked in that fixed order, each failure
returning its own reason; an instructor at exactly max hours offered a
positive-length session is rejected with the capacity reason. -/
theorem C2_can_assign_rules (instructor : LabInstructor) (la : Assignment)
    (it : InstructorTracker) (st : ScheduleTracker) (h : Rat) :
    ((can_assign_instructor_to_lab instructor la it st h).1 = true ↔
      (it.is_qualified instructor.instructor_id la.course_code = true
       ∧ it.is_available instructor.instructor_id la.time_slot.day
           la.time_slot.slot_number = true
       ∧ lecture_conflict_free st instructor.instructor_id la.time_slot.day
           la.time_slot.slot_number = true
       ∧ it.has_capacity instructor.instructor_id h = true))
    ∧ (it.is_qualified instructor.instructor_id la.course_code = false →
        can_assign_instructor_to_lab instructor la it st h =
          (false, Reason.notQualified instructor.instructor_name la.course_code))
    ∧ (it.is_qualified instructor.instructor_id la.course_code = true →
        it.is_available instructor.instructor_id la.time_slot.day
          la.time_slot.slot_number = false →
        can_assign_instructor_to_lab instructor la it st h =
          (false, Reason.alreadyTeaching instructor.instructor_name
            la.time_slot.day la.time_slot.slot_number))
    ∧ (it.is_qualified instructor.instructor_id la.course_code = true →
        it.is_available instructor.instructor_id la.time_slot.day
          la.time_slot.slot_number = true →
        lecture_conflict_free st instructor.instructor_id la.time_slot.day
          la.time_slot.slot_number = false →
        can_assign_instructor_to_lab instructor la it st h =
          (false, Reason.lectureConflict instructor.instructor_name))
    ∧ (it.is_qualified instructor.instructor_id la.course_code = true →
        it.is_available instructor.instructor_id la.time_slot.day
          la.time_slot.slot_number = true →
        lecture_conflict_free st instructor.instructor_id la.time_slot.day
          la.time_slot.slot_number = true →
        it.has_capacity instructor.instructor_id h = false →
        can_assign_instructor_to_lab instructor la it st h =
          (false, Reason.exceedsMaxHours instructor.instructor_name
            (it.instructor_hours instructor.instructor_id) h
            (if instructor.max_hours_per_week = 0 then none
             else some instructor.max_hours_per_week)))
    ∧ (0 < h → it.instructors instructor.instructor_id = some instructor →
        instructor.max_hours_per_week ≠ 0 →
        it.instructor_hours instructor.instructor_id = instructor.max_hours_per_week →
        it.is_qualified instructor.instructor_id la.course_code = true →
        it.is_available instructor.instructor_id la.time_slot.day
          la.time_slot.slot_number = true →
        lecture_conflict_free st instructor.instructor_id la.time_slot.day
          la.time_slot.slot_number = true →
        can_assign_instructor_to_lab instructor la it st h =
          (false, Reason.exceedsMaxHours instructor.instructor_name
            instructor.max_hours_per_week h (some instructor.max_hours_per_week))) := by
  have E := can_assign_eq instructor la it st h
  refine ⟨?_, ?_, ?_, ?_, ?_, ?_⟩
  · rw [E]
    cases hq : it.is_qualified instructor.instructor_id la.course_code <;>
      cases hav : it.is_available instructor.instructor_id la.time_slot.day
        la.time_slot.slot_number <;>
      cases hlc : lecture_conflict_free st instructor.instructor_id la.time_slot.day
        la.time_slot.slot_number <;>
      cases hcap : it.has_capacity instructor.instructor_id h <;>
      simp [capacity_step, hcap]
  · intro hq
    rw [E]
    simp [hq]
  · intro hq hav
    rw [E]
    simp [hq, hav]
  · intro hq hav hlc
    rw [E]
    simp [hq, hav, hlc]
  · intro hq hav hlc hcap
    rw [E]
    simp [hq, hav, hlc, capacity_step, hcap]
  · intro hpos hlook hmax hhours hq hav hlc
    have hcap : it.has_capacity instructor.instructor_id h = false := by
      unfold InstructorTracker.has_capacity
      rw [hlook]
      simp only [hmax, if_false, hhours, decide_eq_false_iff_not, not_le]
      linarith
    rw [E]
    simp [hq, hav, hlc, capacity_step, hcap, hhours, hmax]

/-- Witness for C2 at a concrete instructor sitting at exactly max hours:
the predicate rejects with the capacity reason. -/
theorem C2_can_assign_rules_witness :
    can_assign_instructor_to_lab instrW labW itrW ScheduleTracker.init (3/2) =
      (false, Reason.exceedsMaxHours "Dr W" 3 (3/2) (some 3)) := by
  have H := (C2_can_assign_rules instrW labW itrW ScheduleTracker.init (3/2)).2.2.2.2.2
    (by norm_num) (by rfl) (by decide) (by rfl) (by rfl) (by rfl) (by decide)
  exact H

/-- commit_dept_lecture appends exactly its named Assignment record. -/
theorem commit_dept_lecture_assignments (st : SchedState) (lecture : Lecture)
    (g : Group) (rc : String) (ts : TimeSlot) :
    (commit_dept_lecture st lecture g rc ts).assignments
      = st.assignments ++ [dept_lecture_assignment st lecture g rc ts] := rfl

/-- commit_gp_slots appends one department-lecture Assignment per slot, all
sharing course, instructor and room. -/
theorem commit_gp_slots_spec (lecture : Lecture) (g : Group) (rc : String) :
    ∀ (slots : List TimeSlot) (st : SchedState), ∃ new : List Assignment,
      (commit_gp_slots lecture g rc slots st).assignments = st.assignments ++ new
      ∧ new.map (fun a => a.time_slot) = slots
      ∧ ∀ a ∈ new, a.type = "lecture" ∧ a.course_code = lecture.course_code
          ∧ a.course_name = lecture.course_name ∧ a.room = rc
          ∧ a.instructor = some lecture.instructor_name
          ∧ a.instructor_id = some lecture.instructor_id
          ∧ a.assigned_to = [g.group_id] := by
  intro slots
  induction slots with
  | nil =>
    intro st
    exact ⟨[], by simp [commit_gp_slots], rfl, by simp⟩
  | cons ts rest ih =>
    intro st
    obtain ⟨new2, h1, h2, h3⟩ := ih (commit_dept_lecture st lecture g rc ts)
    refine ⟨dept_lecture_assignment st lecture g rc ts :: new2, ?_, ?_, ?_⟩
    · simp only [commit_gp_slots]
      rw [h1, commit_dept_lecture_assignments]
      simp
    · simp [h2, dept_lecture_assignment]
    · intro a ha
      rcases List.mem_cons.mp ha with h | h
      · subst h
        exact ⟨rfl, rfl, rfl, rfl, rfl, rfl, rfl⟩
      · exact h3 a h

/-- A day failing the graduation-project acceptance test is skipped and the
scan moves to the next day with the state untouched. -/
theorem gp_try_days_skip (cfg : SchedulerConfig) (lecture : Lecture) (g : Group)
    (st : SchedState) (day : String) (rest : List String)
    (hday : gp_day_ok cfg st lecture g day = false) :
    gp_try_days cfg lecture g st (day :: rest) = gp_try_days cfg lecture g st rest := by
  by_cases h1 : (cfg.time_slots.filter (fun ts => decide (ts.day = day))).length = 4
  case neg => simp [gp_try_days, h1, -List.all_filter]
  case pos =>
  cases h2 : (cfg.time_slots.filter (fun ts => decide (ts.day = day))).all
      (fun ts => st.tracker.is_group_available g.group_id ts.day ts.slot_number) with
  | false => simp [gp_try_days, h1, h2, -List.all_filter]
  | true =>
  cases h3 : (cfg.time_slots.filter (fun ts => decide (ts.day = day))).all
      (fun ts => st.tracker.is_instructor_available lecture.instructor_id ts.day ts.slot_number) with
  | false => simp [gp_try_days, h1, h2, h3, -List.all_filter]
  | true =>
  cases hfind : (lec_rooms cfg).find? (fun room =>
      (cfg.time_slots.filter (fun ts => decide (ts.day = day))).all (fun ts =>
        st.tracker.is_room_available room.room_code ts.day ts.slot_number)) with
  | none => simp [gp_try_days, h1, h2, h3, hfind, -List.all_filter]
  | some room =>
    exfalso
    have hmem := List.mem_of_find?_eq_some hfind
    have hpred := List.find?_some hfind
    have h4 : (lec_rooms cfg).any (fun room =>
        (cfg.time_slots.filter (fun ts => decide (ts.day = day))).all (fun ts =>
          st.tracker.is_room_available room.room_code ts.day ts.slot_number)) = true :=
      List.any_eq_true.mpr ⟨room, hmem, hpred⟩
    simp [gp_day_ok, h1, h2, h3, h4, -List.all_filter] at hday

/-- A day passing the graduation-project acceptance test commits the whole-day
block using the first lecture room free across its four slots. -/
theorem gp_try_days_accept (cfg : SchedulerConfig) (lecture : Lecture) (g : Group)
    (st : SchedState) (day : String) (rest : List String)
    (hday : gp_day_ok cfg st lecture g day = true) :
    ∃ room, (lec_rooms cfg).find? (fun room =>
        (cfg.time_slots.filter (fun ts => decide (ts.day = day))).all (fun ts =>
          st.tracker.is_room_available room.room_code ts.day ts.slot_number)) = some room
      ∧ gp_try_days cfg lecture g st (day :: rest)
        = (commit_gp_slots lecture g room.room_code
            (cfg.time_slots.filter (fun ts => decide (ts.day = day))) st, true) := by
  rw [gp_day_ok] at hday
  simp only [Bool.and_eq_true, decide_eq_true_eq] at hday
  obtain ⟨⟨⟨h1, h2⟩, h3⟩, h4⟩ := hday
  have hex := List.any_eq_true.mp h4
  have hsome : ((lec_rooms cfg).find? (fun room =>
      (cfg.time_slots.filter (fun ts => decide (ts.day = day))).all (fun ts =>
        st.tracker.is_room_available room.room_code ts.day ts.slot_number))).isSome := by
    rw [List.find?_isSome]
    exact hex
  obtain ⟨room, hroom⟩ := Option.isSome_iff_exists.mp hsome
  exact ⟨room, hroom, by simp [gp_try_days, h1, h2, h3, hroom, -List.all_filter]⟩

/-- A day list on which no day qualifies yields failure with nothing
committed. -/
theorem gp_try_days_no_day (cfg : SchedulerConfig) (lecture : Lecture) (g : Group)
    (st : SchedState) : ∀ days : List String,
    (∀ day ∈ days, gp_day_ok cfg st lecture g day = false) →
    gp_try_days cfg lecture g st days = (st, false) := by
  intro days
  induction days with
  | nil => intro _; rfl
  | cons day rest ih =>
    intro hall
    rw [gp_try_days_skip cfg lecture g st day rest (hall day (List.mem_cons_self day rest))]
    exact ih (fun d hd => hall d (List.mem_cons_of_mem day hd))

/-- Every Assignment committed by the graduation-project day scan lies on one
of the scanned days. -/
theorem gp_try_days_day_mem (cfg : SchedulerConfig) (lecture : Lecture) (g : Group) :
    ∀ (days : List String) (st : SchedState), ∃ new : List Assignment,
      (gp_try_days cfg lecture g st days).1.assignments = st.assignments ++ new
      ∧ ∀ a ∈ new, a.time_slot.day ∈ days := by
  intro days
  induction days with
  | nil =>
    intro st
    exact ⟨[], by simp [gp_try_days], by simp⟩
  | cons day rest ih =>
    intro st
    cases hday : gp_day_ok cfg st lecture g day with
    | false =>
      obtain ⟨new, h1, h2⟩ := ih st
      rw [gp_try_days_skip cfg lecture g st day rest hday]
      exact ⟨new, h1, fun a ha => List.mem_cons_of_mem day (h2 a ha)⟩
    | true =>
      obtain ⟨room, hroom, heq⟩ := gp_try_days_accept cfg lecture g st day rest hday
      obtain ⟨new, h1, hmap, hprops⟩ := commit_gp_slots_spec lecture g room.room_code
        (cfg.time_slots.filter (fun ts => decide (ts.day = day))) st
      rw [heq]
      refine ⟨new, h1, ?_⟩
      intro a ha
      have hts : a.time_slot ∈ cfg.time_slots.filter (fun ts => decide (ts.day = day)) := by
        rw [← hmap]
        exact List.mem_map_of_mem _ ha
      have hdayeq := List.of_mem_filter hts
      simp only [decide_eq_true_eq] at hdayeq
      rw [hdayeq]
      exact List.mem_cons_self _ _

/-- C5: graduation-project scheduling scans days in canonical order, skips a
day failing the joint availability test, accepts the first passing day with
the first lecture room free across its four slots, commits exactly four
Assignments sharing course, instructor and room (one per slot of that day),
and when no day qualifies returns failure with nothing committed. -/
theorem C5_graduation_project_block (cfg : SchedulerConfig) (lecture : Lecture)
    (dept_group : Group) (st : SchedState) :
    (gp_try_days cfg lecture dept_group st [] = (st, false))
    ∧ (∀ day rest, gp_day_ok cfg st lecture dept_group day = false →
        gp_try_days cfg lecture dept_group st (day :: rest)
          = gp_try_days cfg lecture dept_group st rest)
    ∧ (∀ days : List String,
        (∀ day ∈ days, gp_day_ok cfg st lecture dept_group day = false) →
        gp_try_days cfg lecture dept_group st days = (st, false))
    ∧ (∀ day rest, gp_day_ok cfg st lecture dept_group day = true →
        ∃ room new,
          (lec_rooms cfg).find? (fun room =>
            (cfg.time_slots.filter (fun ts => decide (ts.day = day))).all (fun ts =>
              st.tracker.is_room_available room.room_code ts.day ts.slot_number)) = some room
          ∧ (gp_try_days cfg lecture dept_group st (day :: rest)).2 = true
          ∧ (gp_try_days cfg lecture dept_group st (day :: rest)).1.assignments
              = st.assignments ++ new
          ∧ new.length = 4
          ∧ new.map (fun a => a.time_slot)
              = cfg.time_slots.filter (fun ts => decide (ts.day = day))
          ∧ ∀ a ∈ new, a.type = "lecture" ∧ a.course_code = lecture.course_code
              ∧ a.room = room.room_code ∧ a.instructor_id = some lecture.instructor_id
              ∧ a.time_slot.day = day)
    ∧ (∀ (level : Int) (department : String) (gp_lecture : Lecture) (g : Group)
          (gs : List Group),
        cfg.sections.filter (fun s =>
          decide (s.level = level) && decide (s.department = some department)) ≠ [] →
        cfg.groups.filter (fun g2 =>
          decide (g2.level = level) && pyStrIn department g2.group_id) = g :: gs →
        schedule_graduation_project cfg st level department gp_lecture
          = some (gp_try_days cfg gp_lecture g st gp_days)) := by
  refine ⟨rfl, ?_, gp_try_days_no_day cfg lecture dept_group st, ?_, ?_⟩
  · intro day rest hday
    exact gp_try_days_skip cfg lecture dept_group st day rest hday
  · intro day rest hday
    obtain ⟨room, hroom, heq⟩ := gp_try_days_accept cfg lecture dept_group st day rest hday
    obtain ⟨new, h1, hmap, hprops⟩ := commit_gp_slots_spec lecture dept_group room.room_code
      (cfg.time_slots.filter (fun ts => decide (ts.day = day))) st
    have hlen4 : (cfg.time_slots.filter (fun ts => decide (ts.day = day))).length = 4 := by
      rw [gp_day_ok] at hday
      simp only [Bool.and_eq_true, decide_eq_true_eq] at hday
      exact hday.1.1.1
    refine ⟨room, new, hroom, by rw [heq], by rw [heq]; exact h1, ?_, hmap, ?_⟩
    · have := congrArg List.length hmap
      simpa using this.trans hlen4
    · intro a ha
      obtain ⟨ht, hc, _, hr, _, hi, _⟩ := hprops a ha
      refine ⟨ht, hc, hr, hi, ?_⟩
      have hts : a.time_slot ∈ cfg.time_slots.filter (fun ts => decide (ts.day = day)) := by
        rw [← hmap]
        exact List.mem_map_of_mem _ ha
      have hdayeq := List.of_mem_filter hts
      simpa using hdayeq
  · intro level department gp_lecture g gs hsec hgroups
    have hE : (cfg.sections.filter (fun s =>
        decide (s.level = level) && decide (s.department = some department))).isEmpty = false := by
      cases hE2 : (cfg.sections.filter (fun s =>
          decide (s.level = level) && decide (s.department = some department))).isEmpty
      · rfl
      · exact absurd (List.isEmpty_iff.mp hE2) hsec
    simp [schedule_graduation_project, hE, hgroups]

/-- Witness for C5: on the one-department Sunday catalog the block is accepted
on the first day tried and commits four Assignments. -/
theorem C5_graduation_project_block_witness :
    (gp_try_days cfgGP lecGP groupGP init_state
      ("Sunday" :: ["Monday", "Tuesday", "Wednesday", "Thursday"])).2 = true
    ∧ (gp_try_days cfgGP lecGP groupGP init_state
      ("Sunday" :: ["Monday", "Tuesday", "Wednesday", "Thursday"])).1.assignments.length = 4 := by
  obtain ⟨room, new, hroom, hb, happ, hlen, hmap, hprops⟩ :=
    (C5_graduation_project_block cfgGP lecGP groupGP init_state).2.2.2.1
      "Sunday" ["Monday", "Tuesday", "Wednesday", "Thursday"] (by decide)
  refine ⟨hb, ?_⟩
  rw [happ]
  simpa [init_state] using hlen

/-- Inversion of the department-lab candidate test: a produced candidate keeps
its source slot, never lies on Saturday, and its room is currently free. -/
theorem dept_valid_slot_some (cfg : SchedulerConfig) (d : DeptLabState) (lab : Lab)
    (qualified : List LabInstructor) (sec : SectionRec) (ts : TimeSlot)
    (c : TimeSlot × String × Nat)
    (h : dept_valid_slot? cfg d lab qualified sec ts = some c) :
    c.1 = ts ∧ ts.day ≠ "Saturday"
    ∧ d.st.tracker.is_room_available c.2.1 ts.day ts.slot_number = true := by
  simp only [dept_valid_slot?] at h
  split at h
  next hsat => exact absurd h (by simp)
  next hsat =>
    split at h
    next => exact absurd h (by simp)
    next =>
      split at h
      next hfind => exact absurd h (by simp)
      next room hfind =>
        split at h
        next hany =>
          have hc := Option.some.inj h
          have hpred := List.find?_some hfind
          subst hc
          exact ⟨rfl, hsat, hpred⟩
        next => exact absurd h (by simp)

/-- Every member of the department-lab candidate list avoids Saturday and has
a currently free room. -/
theorem dept_candidate_mem (cfg : SchedulerConfig) (d : DeptLabState) (lab : Lab)
    (qualified : List LabInstructor) (sec : SectionRec) (c : TimeSlot × String × Nat)
    (h : c ∈ cfg.time_slots.filterMap (dept_valid_slot? cfg d lab qualified sec)) :
    c.1.day ≠ "Saturday"
    ∧ d.st.tracker.is_room_available c.2.1 c.1.day c.1.slot_number = true := by
  obtain ⟨ts, _, hsome⟩ := List.mem_filterMap.mp h
  obtain ⟨h1, h2, h3⟩ := dept_valid_slot_some cfg d lab qualified sec ts c hsome
  rw [h1]
  exact ⟨h2, h3⟩

/-- commit_dept_lab appends exactly its named Assignment record. -/
theorem commit_dept_lab_assignments (d : DeptLabState) (lab : Lab) (sec : SectionRec)
    (instructor : LabInstructor) (room_code : String) (ts : TimeSlot) :
    (commit_dept_lab d lab sec instructor room_code ts).st.assignments
      = d.st.assignments ++ [dept_lab_assignment d lab sec instructor room_code ts] := rfl

/-- One department-lab pair appends at most one lab Assignment, never on
Saturday (given a sound selection oracle). -/
theorem dept_lab_pair_spec (cfg : SchedulerConfig) (O : RandomOracle) (lab : Lab)
    (qualified : List LabInstructor) (d : DeptLabState) (k : Nat) (sec : SectionRec)
    (hsel : O.SelectsMember) :
    ∃ new : List Assignment,
      (dept_lab_pair cfg O lab qualified d k sec).1.st.assignments
        = d.st.assignments ++ new
      ∧ ∀ a ∈ new, a.type = "lab" ∧ a.time_slot.day ≠ "Saturday" := by
  unfold dept_lab_pair
  split
  · exact ⟨[], by simp, by simp⟩
  · split
    next hc => exact ⟨[], by simp, by simp⟩
    next c cs hc =>
      dsimp only
      split
      next => exact ⟨[], by simp, by simp⟩
      next instructor hfind =>
        refine ⟨[dept_lab_assignment d lab sec instructor
          (O.select_candidate k c cs).2.1 (O.select_candidate k c cs).1],
          commit_dept_lab_assignments d lab sec instructor _ _, ?_⟩
        intro a ha
        rw [List.mem_singleton] at ha
        subst ha
        have hmem : O.select_candidate k c cs ∈
            cfg.time_slots.filterMap (dept_valid_slot? cfg d lab qualified sec) := by
          rw [hc]
          exact hsel k c cs
        have := dept_candidate_mem cfg d lab qualified sec _ hmem
        exact ⟨rfl, this.1⟩

/-- The section loop of the department-lab phase only appends non-Saturday lab
Assignments. -/
theorem dept_lab_sections_spec (cfg : SchedulerConfig) (O : RandomOracle) (lab : Lab)
    (qualified : List LabInstructor) (hsel : O.SelectsMember) :
    ∀ (secs : List SectionRec) (d : DeptLabState) (k : Nat),
    ∃ new : List Assignment,
      (dept_lab_sections cfg O lab qualified secs d k).1.st.assignments
        = d.st.assignments ++ new
      ∧ ∀ a ∈ new, a.type = "lab" ∧ a.time_slot.day ≠ "Saturday" := by
  intro secs
  induction secs with
  | nil => intro d k; exact ⟨[], by simp [dept_lab_sections], by simp⟩
  | cons sec rest ih =>
    intro d k
    obtain ⟨new1, h1, h2⟩ := dept_lab_pair_spec cfg O lab qualified d k sec hsel
    obtain ⟨new2, h3, h4⟩ := ih (dept_lab_pair cfg O lab qualified d k sec).1
      (dept_lab_pair cfg O lab qualified d k sec).2
    refine ⟨new1 ++ new2, ?_, ?_⟩
    · have : dept_lab_sections cfg O lab qualified (sec :: rest) d k
          = dept_lab_sections cfg O lab qualified rest
              (dept_lab_pair cfg O lab qualified d k sec).1
              (dept_lab_pair cfg O lab qualified d k sec).2 := by
        simp only [dept_lab_sections]
      rw [this, h3, h1, List.append_assoc]
    · intro a ha
      rcases List.mem_append.mp ha with h | h
      · exact h2 a h
      · exact h4 a h

/-- The course loop of the department-lab phase only appends non-Saturday lab
Assignments. -/
theorem dept_lab_courses_spec (cfg : SchedulerConfig) (O : RandomOracle)
    (dept_sections : List SectionRec) (hsel : O.SelectsMember) :
    ∀ (labs : List Lab) (d : DeptLabState) (k : Nat),
    ∃ new : List Assignment,
      (dept_lab_courses cfg O dept_sections labs d k).1.st.assignments
        = d.st.assignments ++ new
      ∧ ∀ a ∈ new, a.type = "lab" ∧ a.time_slot.day ≠ "Saturday" := by
  intro labs
  induction labs with
  | nil => intro d k; exact ⟨[], by simp [dept_lab_courses], by simp⟩
  | cons lab rest ih =>
    intro d k
    obtain ⟨new1, h1, h2⟩ := dept_lab_sections_spec cfg O lab
      (cfg.lab_instructors.filter (fun instructor =>
        instructor.qualified_labs.contains lab.course_code)) hsel dept_sections d k
    obtain ⟨new2, h3, h4⟩ := ih
      (dept_lab_sections cfg O lab
        (cfg.lab_instructors.filter (fun instructor =>
          instructor.qualified_labs.contains lab.course_code)) dept_sections d k).1
      (dept_lab_sections cfg O lab
        (cfg.lab_instructors.filter (fun instructor =>
          instructor.qualified_labs.contains lab.course_code)) dept_sections d k).2
    refine ⟨new1 ++ new2, ?_, ?_⟩
    · have : dept_lab_courses cfg O dept_sections (lab :: rest) d k
          = dept_lab_courses cfg O dept_sections rest
              (dept_lab_sections cfg O lab
                (cfg.lab_instructors.filter (fun instructor =>
                  instructor.qualified_labs.contains lab.course_code)) dept_sections d k).1
              (dept_lab_sections cfg O lab
                (cfg.lab_instructors.filter (fun instructor =>
                  instructor.qualified_labs.contains lab.course_code)) dept_sections d k).2 := by
        simp only [dept_lab_courses]
      rw [this, h3, h1, List.append_assoc]
    · intro a ha
      rcases List.mem_append.mp ha with h | h
      · exact h2 a h
      · exact h4 a h

/-- The department-lab phase always reports success. -/
theorem schedule_department_labs_success (cfg : SchedulerConfig) (O : RandomOracle)
    (st : SchedState) (k : Nat) (level : Int) (department : String) (labs_data : List Lab) :
    (schedule_department_labs cfg O st k level department labs_data).2.2 = true := by
  unfold schedule_department_labs
  dsimp only
  split
  · rfl
  · rfl

/-- The department-lab phase appends only non-Saturday lab Assignments and
succeeds. -/
theorem schedule_department_labs_spec (cfg : SchedulerConfig) (O : RandomOracle)
    (st : SchedState) (k : Nat) (level : Int) (department : String)
    (labs_data : List Lab) (hsel : O.SelectsMember) :
    (schedule_department_labs cfg O st k level department labs_data).2.2 = true
    ∧ ∃ new : List Assignment,
      (schedule_department_labs cfg O st k level department labs_data).1.assignments
        = st.assignments ++ new
      ∧ ∀ a ∈ new, a.type = "lab" ∧ a.time_slot.day ≠ "Saturday" := by
  refine ⟨schedule_department_labs_success cfg O st k level department labs_data, ?_⟩
  unfold schedule_department_labs
  dsimp only
  split
  · exact ⟨[], by simp, by simp⟩
  · obtain ⟨new, h1, h2⟩ := dept_lab_courses_spec cfg O
      (cfg.sections.filter (fun s =>
        decide (s.level = level) && decide (s.department = some department))) hsel
      labs_data ⟨st, fun _ _ => 0, fun _ => []⟩ k
    exact ⟨new, h1, h2⟩

/-- The head-of-list selection oracle always picks a list member. -/
theorem oracleId_selects : oracleId.SelectsMember :=
  fun _ c cs => List.mem_cons_self c cs

/-- C7: department-scoped lab scheduling never aborts — the phase always
returns success; a (lab, section) pair with no valid candidate leaves the
state untouched (it is only logged and skipped); and the section loop always
proceeds to the remaining pairs with whatever the current pair produced. -/
theorem C7_department_labs_never_abort :
    (∀ (cfg : SchedulerConfig) (O : RandomOracle) (st : SchedState) (k : Nat)
        (level : Int) (department : String) (labs_data : List Lab),
      (schedule_department_labs cfg O st k level department labs_data).2.2 = true)
    ∧ (∀ (cfg : SchedulerConfig) (O : RandomOracle) (lab : Lab)
        (qualified : List LabInstructor) (d : DeptLabState) (k : Nat) (sec : SectionRec),
        d.st.tracker.has_section_taken_lab sec.section_id lab.course_code = false →
        cfg.time_slots.filterMap (dept_valid_slot? cfg d lab qualified sec) = [] →
        dept_lab_pair cfg O lab qualified d k sec = (d, k))
    ∧ (∀ (cfg : SchedulerConfig) (O : RandomOracle) (lab : Lab)
        (qualified : List LabInstructor) (sec : SectionRec) (rest : List SectionRec)
        (d : DeptLabState) (k : Nat),
        dept_lab_sections cfg O lab qualified (sec :: rest) d k
          = dept_lab_sections cfg O lab qualified rest
              (dept_lab_pair cfg O lab qualified d k sec).1
              (dept_lab_pair cfg O lab qualified d k sec).2) := by
  refine ⟨fun cfg O st k level department labs =>
    schedule_department_labs_success cfg O st k level department labs, ?_, ?_⟩
  · intro cfg O lab qualified d k sec htaken hempty
    simp [dept_lab_pair, htaken, hempty]
  · intro cfg O lab qualified sec rest d k
    rfl

/-- Witness for C7: a pair with no candidates on the empty catalog is skipped
with the state unchanged, and the phase reports success. -/
theorem C7_department_labs_never_abort_witness :
    dept_lab_pair cfgEmpty oracleId labX [] dlsW 0 secGP = (dlsW, 0)
    ∧ (schedule_department_labs cfgEmpty oracleId init_state 0 3 "CSC" [labX]).2.2 = true := by
  exact ⟨C7_department_labs_never_abort.2.1 cfgEmpty oracleId labX [] dlsW 0 secGP
      (by rfl) (by rfl),
    C7_department_labs_never_abort.1 cfgEmpty oracleId init_state 0 3 "CSC" [labX]⟩

/-- Counterexample for C6: the enumerated TimeSlot catalog has no day beyond
the five regular weekdays — the reserved block day claimed by the spec does
not exist in the catalog. -/
theorem C6_counterexample_no_extra_day :
    ¬ ∃ ts ∈ generate_time_slots, ts.day ∉ DAYS := by decide

/-- C6 (amended): the catalog covers exactly the 5 weekdays Sunday-Thursday
with 4 slots each (20 slots, no reserved block day); department lab scheduling
never places a session on "Saturday" (the guard is vacuous, no such slot
exists); and graduation-project blocks are placed on one of the 5 regular
weekdays, not on a reserved day. -/
theorem C6_time_slot_catalog_amended :
    (∀ ts ∈ generate_time_slots, ts.day ∈ DAYS)
    ∧ generate_time_slots.length = 20
    ∧ (∀ d ∈ DAYS, (generate_time_slots.filter (fun ts => decide (ts.day = d))).length = 4)
    ∧ (∀ (cfg : SchedulerConfig) (O : RandomOracle) (st : SchedState) (k : Nat)
        (level : Int) (department : String) (labs_data : List Lab),
        O.SelectsMember →
        ∃ new, (schedule_department_labs cfg O st k level department labs_data).1.assignments
            = st.assignments ++ new
          ∧ ∀ a ∈ new, a.time_slot.day ≠ "Saturday")
    ∧ (∀ (cfg : SchedulerConfig) (st : SchedState) (level : Int) (department : String)
        (gp_lecture : Lecture) (st2 : SchedState) (b : Bool),
        schedule_graduation_project cfg st level department gp_lecture = some (st2, b) →
        ∃ new, st2.assignments = st.assignments ++ new
          ∧ ∀ a ∈ new, a.time_slot.day ∈ gp_days) := by
  refine ⟨by decide, by decide, by decide, ?_, ?_⟩
  · intro cfg O st k level department labs_data hsel
    obtain ⟨new, h1, h2⟩ :=
      (schedule_department_labs_spec cfg O st k level department labs_data hsel).2
    exact ⟨new, h1, fun a ha => (h2 a ha).2⟩
  · intro cfg st level department gp_lecture st2 b h
    unfold schedule_graduation_project at h
    dsimp only at h
    split at h
    · have hp := Option.some.inj h
      have h1 : st = st2 := congrArg Prod.fst hp
      exact ⟨[], by rw [← h1]; simp, by simp⟩
    · split at h
      · exact absurd h (by simp)
      next g gs hg =>
        have hpair := Option.some.inj h
        obtain ⟨new, ha, hb⟩ := gp_try_days_day_mem cfg gp_lecture g gp_days st
        refine ⟨new, ?_, hb⟩
        have h2 : st2 = (gp_try_days cfg gp_lecture g st gp_days).1 := by
          rw [hpair]
        rw [h2]
        exact ha

/-- Witness for C6: the amended characterisation applied to the empty catalog
department-lab run and to a concrete successful graduation-project run. -/
theorem C6_time_slot_catalog_amended_witness :
    (∃ new, (schedule_department_labs cfgEmpty oracleId init_state 0 3 "CSC" []).1.assignments
        = init_state.assignments ++ new
      ∧ ∀ a ∈ new, a.time_slot.day ≠ "Saturday")
    ∧ (∃ new, gpResW.1.assignments = init_state.assignments ++ new
      ∧ ∀ a ∈ new, a.time_slot.day ∈ gp_days) := by
  refine ⟨C6_time_slot_catalog_amended.2.2.2.1 cfgEmpty oracleId init_state 0 3 "CSC" []
      oracleId_selects, ?_⟩
  exact C6_time_slot_catalog_amended.2.2.2.2 cfgGP init_state 4 "CSC" lecGP
    gpResW.1 gpResW.2 (by rfl)

/-- commit_lecture appends exactly its named Assignment record. -/
theorem commit_lecture_assignments (st : SchedState) (lecture : Lecture) (group : Group)
    (room : Room) (ts : TimeSlot) :
    (commit_lecture st lecture group room ts).assignments
      = st.assignments ++ [lecture_assignment st lecture group room ts] := rfl

/-- A slot failing the joint lecture test is skipped by the first-fit rule. -/
theorem first_valid_slot_cons_neg (cfg : SchedulerConfig) (st : SchedState)
    (lecture : Lecture) (group : Group) (ts : TimeSlot) (rest : List TimeSlot)
    (hok : lecture_slot_ok cfg st lecture group ts = false) :
    first_valid_slot cfg st lecture group (ts :: rest)
      = first_valid_slot cfg st lecture group rest := by
  unfold first_valid_slot
  rw [List.find?_cons_of_neg _ (by simp [hok])]

/-- A slot passing the joint lecture test is taken by the first-fit rule,
paired with the first free lecture room. -/
theorem first_valid_slot_cons_pos (cfg : SchedulerConfig) (st : SchedState)
    (lecture : Lecture) (group : Group) (ts : TimeSlot) (rest : List TimeSlot)
    (hok : lecture_slot_ok cfg st lecture group ts = true) :
    first_valid_slot cfg st lecture group (ts :: rest)
      = ((lec_rooms cfg).find?
          (fun room => st.tracker.is_room_available room.room_code ts.day ts.slot_number)).map
          (fun room => (ts, room)) := by
  unfold first_valid_slot
  rw [List.find?_cons_of_pos _ (by simp [hok])]
  rfl

/-- The schedule_lectures slot loop computes exactly the first-fit rule: find
the first catalog slot passing all four constraints, then commit with the
first free lecture room there. -/
theorem try_lecture_slots_eq_first_fit (cfg : SchedulerConfig) (st : SchedState)
    (lecture : Lecture) (group : Group) : ∀ slots : List TimeSlot,
    try_lecture_slots cfg st lecture group slots
      = (first_valid_slot cfg st lecture group slots).map
          (fun p => commit_lecture st lecture group p.2 p.1) := by
  intro slots
  induction slots with
  | nil => simp [try_lecture_slots, first_valid_slot]
  | cons ts rest ih =>
    cases h1 : st.tracker.is_instructor_available lecture.instructor_id ts.day ts.slot_number with
    | false =>
      have hok : lecture_slot_ok cfg st lecture group ts = false := by
        simp [lecture_slot_ok, h1]
      simp only [try_lecture_slots]
      rw [if_pos h1, ih, first_valid_slot_cons_neg cfg st lecture group ts rest hok]
    | true =>
    cases h2 : st.tracker.is_group_available group.group_id ts.day ts.slot_number with
    | false =>
      have hok : lecture_slot_ok cfg st lecture group ts = false := by
        simp [lecture_slot_ok, h2]
      simp only [try_lecture_slots]
      rw [if_neg (by simp [h1]), if_pos h2, ih,
        first_valid_slot_cons_neg cfg st lecture group ts rest hok]
    | true =>
    cases h3 : group.sections.all
        (fun s => st.tracker.is_section_available s.section_id ts.day ts.slot_number) with
    | false =>
      have hok : lecture_slot_ok cfg st lecture group ts = false := by
        simp [lecture_slot_ok, h3]
      simp only [try_lecture_slots]
      rw [if_neg (by simp [h1]), if_neg (by simp [h2]), if_pos h3, ih,
        first_valid_slot_cons_neg cfg st lecture group ts rest hok]
    | true =>
    cases hfind : (lec_rooms cfg).find?
        (fun room => st.tracker.is_room_available room.room_code ts.day ts.slot_number) with
    | none =>
      have hany : (lec_rooms cfg).any
          (fun room => st.tracker.is_room_available room.room_code ts.day ts.slot_number)
            = false := by
        rw [Bool.eq_false_iff]
        intro hc
        obtain ⟨room, hmem, hpred⟩ := List.any_eq_true.mp hc
        exact List.find?_eq_none.mp hfind room hmem hpred
      have hok : lecture_slot_ok cfg st lecture group ts = false := by
        simp [lecture_slot_ok, hany]
      simp only [try_lecture_slots]
      rw [if_neg (by simp [h1]), if_neg (by simp [h2]), if_neg (by simp [h3]), hfind, ih,
        first_valid_slot_cons_neg cfg st lecture group ts rest hok]
    | some room =>
      have hmem := List.mem_of_find?_eq_some hfind
      have hpred := List.find?_some hfind
      have hok : lecture_slot_ok cfg st lecture group ts = true := by
        have hany : (lec_rooms cfg).any
            (fun room => st.tracker.is_room_available room.room_code ts.day ts.slot_number)
              = true := List.any_eq_true.mpr ⟨room, hmem, hpred⟩
        simp [lecture_slot_ok, h1, h2, h3, hany]
      simp only [try_lecture_slots]
      rw [if_neg (by simp [h1]), if_neg (by simp [h2]), if_neg (by simp [h3]), hfind,
        first_valid_slot_cons_pos cfg st lecture group ts rest hok, hfind]
      rfl

/-- C3: for each (lecture, group) pair not yet holding the course, the slot
scan accepts the first catalog slot where instructor, group, all sections and
some lecture room are free (first room in catalog order), committing exactly
one Assignment; a pair with no valid slot makes the level fail immediately
with all earlier commitments retained, and the outer lecture loop propagates
that failure without touching the remaining lectures. -/
theorem C3_lectures_first_fit_fail_fast (cfg : SchedulerConfig) (st : SchedState)
    (lecture : Lecture) (group : Group) :
    (∀ slots : List TimeSlot,
      try_lecture_slots cfg st lecture group slots
        = (first_valid_slot cfg st lecture group slots).map
            (fun p => commit_lecture st lecture group p.2 p.1))
    ∧ (∀ (room : Room) (ts : TimeSlot),
        (commit_lecture st lecture group room ts).assignments
          = st.assignments ++ [lecture_assignment st lecture group room ts])
    ∧ (∀ gs : List Group,
        st.tracker.has_group_taken_lecture group.group_id lecture.course_code = false →
        first_valid_slot cfg st lecture group cfg.time_slots = none →
        schedule_lecture_groups cfg lecture st (group :: gs) = (st, false))
    ∧ (∀ (level_groups : List Group) (rest : List Lecture) (st2 : SchedState),
        schedule_lecture_groups cfg lecture st level_groups = (st2, false) →
        schedule_lectures_go cfg level_groups st (lecture :: rest) = (st2, false)) := by
  refine ⟨try_lecture_slots_eq_first_fit cfg st lecture group,
    fun room ts => commit_lecture_assignments st lecture group room ts, ?_, ?_⟩
  · intro gs htaken hnone
    rw [schedule_lecture_groups]
    rw [if_neg (by simp [htaken]), try_lecture_slots_eq_first_fit, hnone]
    rfl
  · intro level_groups rest st2 h
    rw [schedule_lectures_go, h]

/-- Witness for C3: on a catalog with no lecture rooms the first (lecture,
group) pair has no valid slot and the level fails at once, state unchanged. -/
theorem C3_lectures_first_fit_fail_fast_witness :
    schedule_lecture_groups cfgNoRoom lecW init_state [grpW] = (init_state, false) := by
  exact (C3_lectures_first_fit_fail_fast cfgNoRoom init_state lecW grpW).2.2.1 []
    (by rfl) (by rfl)

/-- commit_lab appends exactly its named Assignment record. -/
theorem commit_lab_assignments_eq (st : SchedState) (lab : Lab) (sec : SectionRec)
    (rc : String) (ts : TimeSlot) :
    (commit_lab st lab sec rc ts).assignments
      = st.assignments ++ [lab_assignment st lab sec rc ts] := rfl

/-- Per-course per-slot counting distributes over append. -/
theorem countCourseSlot_append (l1 l2 : List Assignment) (c : String) (key : String × Int) :
    countCourseSlot (l1 ++ l2) c key = countCourseSlot l1 c key + countCourseSlot l2 c key := by
  simp [countCourseSlot, List.filter_append]

/-- Counting a single freshly committed lab Assignment. -/
theorem countCourseSlot_lab_single (st : SchedState) (lab : Lab) (sec : SectionRec)
    (rc : String) (ts : TimeSlot) (c : String) (key : String × Int) :
    countCourseSlot [lab_assignment st lab sec rc ts] c key
      = if c = lab.course_code ∧ key = (ts.day, ts.slot_number) then 1 else 0 := by
  by_cases h : c = lab.course_code ∧ key = (ts.day, ts.slot_number)
  · obtain ⟨h1, h2⟩ := h
    simp [countCourseSlot, lab_assignment, h1, h2]
  · rw [if_neg h]
    rcases not_and_or.mp h with hc | hk
    · have hne : ¬ lab.course_code = c := fun heq => hc heq.symm
      simp [countCourseSlot, lab_assignment, hne]
    · have hne : ¬ (ts.day, ts.slot_number) = key := fun heq => hk heq.symm
      simp [countCourseSlot, lab_assignment, hne]

/-- The shared-cohort lab slot loop: a successful placement appends exactly
one lab Assignment, bumps its course/slot counter, and only fires when that
counter was strictly below the course's instructor limit. -/
theorem try_lab_slots_cnt (cfg : SchedulerConfig) (O : RandomOracle) (lab : Lab)
    (sec : SectionRec) (st : SchedState) (cnt : UsageCnt) :
    ∀ (slots : List TimeSlot) (k : Nat) (st2 : SchedState) (cnt2 : UsageCnt) (k2 : Nat),
    try_lab_slots cfg O lab sec st cnt slots k = (some (st2, cnt2), k2) →
    ∃ new, st2.assignments = st.assignments ++ new
      ∧ cntDelta cnt cnt2 new
      ∧ (cntBound cfg cnt → cntBound cfg cnt2) := by
  intro slots
  induction slots with
  | nil =>
    intro k st2 cnt2 k2 h
    exact absurd h (by simp [try_lab_slots])
  | cons ts rest ih =>
    intro k st2 cnt2 k2 h
    rw [try_lab_slots] at h
    split at h
    · exact ih k st2 cnt2 k2 h
    · split at h
      · exact ih k st2 cnt2 k2 h
      next hguard =>
        split at h
        next k3 hpick => exact ih k3 st2 cnt2 k2 h
        next rc k3 hpick =>
          have hfst := congrArg Prod.fst h
          have hopt : some ((commit_lab st lab sec rc ts,
              bumpCnt cnt lab.course_code (ts.day, ts.slot_number))) = some (st2, cnt2) := hfst
          have hpair := Option.some.inj hopt
          have hst2 : commit_lab st lab sec rc ts = st2 := congrArg Prod.fst hpair
          have hcnt2 : bumpCnt cnt lab.course_code (ts.day, ts.slot_number) = cnt2 :=
            congrArg Prod.snd hpair
          refine ⟨[lab_assignment st lab sec rc ts], ?_, ?_, ?_⟩
          · rw [← hst2]
            exact commit_lab_assignments_eq st lab sec rc ts
          · intro c key
            rw [← hcnt2, countCourseSlot_lab_single]
            by_cases hck : c = lab.course_code ∧ key = (ts.day, ts.slot_number)
            · rw [if_pos hck]
              simp [bumpCnt, hck]
            · rw [if_neg hck]
              simp [bumpCnt, hck]
          · intro hb c key
            rw [← hcnt2]
            have hlt : cnt lab.course_code (ts.day, ts.slot_number)
                < course_instructor_limit cfg lab.course_code := Nat.lt_of_not_le hguard
            by_cases hck : c = lab.course_code ∧ key = (ts.day, ts.slot_number)
            · obtain ⟨hc, hk⟩ := hck
              subst hc
              subst hk
              simp only [bumpCnt, and_self, if_true]
              omega
            · simp only [bumpCnt, if_neg hck]
              exact hb c key

/-- The shared-cohort lab section loop only grows the assignment list, with
counters tracking exactly the appended labs and never exceeding the limit. -/
theorem schedule_labs_sections_cnt (cfg : SchedulerConfig) (O : RandomOracle) (lab : Lab) :
    ∀ (secs : List SectionRec) (st : SchedState) (cnt : UsageCnt) (k : Nat),
    ∃ new,
      (schedule_labs_sections cfg O lab secs st cnt k).1.assignments = st.assignments ++ new
      ∧ cntDelta cnt (schedule_labs_sections cfg O lab secs st cnt k).2.1 new
      ∧ (cntBound cfg cnt → cntBound cfg (schedule_labs_sections cfg O lab secs st cnt k).2.1) := by
  intro secs
  induction secs with
  | nil =>
    intro st cnt k
    exact ⟨[], by simp [schedule_labs_sections],
      fun c key => by simp [schedule_labs_sections, countCourseSlot], fun hb => by
        simpa [schedule_labs_sections] using hb⟩
  | cons sec rest ih =>
    intro st cnt k
    cases htaken : st.tracker.has_section_taken_lab sec.section_id lab.course_code with
    | true =>
      have hstep : schedule_labs_sections cfg O lab (sec :: rest) st cnt k
          = schedule_labs_sections cfg O lab rest st cnt k := by
        simp [schedule_labs_sections, htaken]
      rw [hstep]
      exact ih st cnt k
    | false =>
      rcases htry : try_lab_slots cfg O lab sec st cnt (O.shuffle_slots k cfg.time_slots) (k + 1)
        with ⟨res, k2⟩
      cases res with
      | none =>
        have hstep : schedule_labs_sections cfg O lab (sec :: rest) st cnt k
            = (st, cnt, k2, false) := by
          simp [schedule_labs_sections, htaken, htry]
        rw [hstep]
        exact ⟨[], by simp, fun c key => by simp [countCourseSlot], fun hb => hb⟩
      | some p =>
        rcases p with ⟨st2, cnt2⟩
        have hstep : schedule_labs_sections cfg O lab (sec :: rest) st cnt k
            = schedule_labs_sections cfg O lab rest st2 cnt2 k2 := by
          simp [schedule_labs_sections, htaken, htry]
        obtain ⟨new1, g1, g2, g3⟩ := try_lab_slots_cnt cfg O lab sec st cnt
          (O.shuffle_slots k cfg.time_slots) (k + 1) st2 cnt2 k2 htry
        obtain ⟨new2, f1, f2, f3⟩ := ih st2 cnt2 k2
        rw [hstep]
        refine ⟨new1 ++ new2, ?_, ?_, ?_⟩
        · rw [f1, g1, List.append_assoc]
        · intro c key
          rw [f2 c key, g2 c key, countCourseSlot_append]
          omega
        · exact fun hb => f3 (g3 hb)

/-- The shared-cohort lab course loop: same accounting, lifted over labs. -/
theorem schedule_labs_go_cnt (cfg : SchedulerConfig) (O : RandomOracle)
    (level_sections : List SectionRec) :
    ∀ (labs : List Lab) (st : SchedState) (cnt : UsageCnt) (k : Nat),
    ∃ new,
      (schedule_labs_go cfg O level_sections labs st cnt k).1.assignments
        = st.assignments ++ new
      ∧ cntDelta cnt (schedule_labs_go cfg O level_sections labs st cnt k).2.1 new
      ∧ (cntBound cfg cnt →
          cntBound cfg (schedule_labs_go cfg O level_sections labs st cnt k).2.1) := by
  intro labs
  induction labs with
  | nil =>
    intro st cnt k
    exact ⟨[], by simp [schedule_labs_go],
      fun c key => by simp [schedule_labs_go, countCourseSlot], fun hb => by
        simpa [schedule_labs_go] using hb⟩
  | cons lab rest ih =>
    intro st cnt k
    rcases hsec : schedule_labs_sections cfg O lab level_sections st cnt k
      with ⟨st2, cnt2, k2, b⟩
    obtain ⟨new1, g1, g2, g3⟩ := schedule_labs_sections_cnt cfg O lab level_sections st cnt k
    rw [hsec] at g1 g2 g3
    dsimp only at g1 g2 g3
    cases b with
    | false =>
      have hstep : schedule_labs_go cfg O level_sections (lab :: rest) st cnt k
          = (st2, cnt2, k2, false) := by
        simp [schedule_labs_go, hsec]
      rw [hstep]
      exact ⟨new1, g1, g2, g3⟩
    | true =>
      have hstep : schedule_labs_go cfg O level_sections (lab :: rest) st cnt k
          = schedule_labs_go cfg O level_sections rest st2 cnt2 k2 := by
        simp [schedule_labs_go, hsec]
      obtain ⟨new2, f1, f2, f3⟩ := ih st2 cnt2 k2
      rw [hstep]
      refine ⟨new1 ++ new2, ?_, ?_, ?_⟩
      · rw [f1, g1, List.append_assoc]
      · intro c key
        rw [f2 c key, g2 c key, countCourseSlot_append]
        omega
      · exact fun hb => f3 (g3 hb)

/-- One schedule_labs run appends labs whose per-course per-slot counts stay
within the computed instructor limit. -/
theorem schedule_labs_cnt (cfg : SchedulerConfig) (O : RandomOracle) (st : SchedState)
    (k : Nat) (level : Int) (labs_data : List Lab) :
    ∃ new,
      (schedule_labs cfg O st k level labs_data).1.assignments = st.assignments ++ new
      ∧ ∀ course key, countCourseSlot new course key ≤ course_instructor_limit cfg course := by
  obtain ⟨new, h1, h2, h3⟩ := schedule_labs_go_cnt cfg O
    (cfg.sections.filter (fun s => decide (s.level = level)))
    (sort_labs labs_data) st (fun _ _ => 0) k
  refine ⟨new, h1, ?_⟩
  intro course key
  have hb := h3 (fun c key2 => Nat.zero_le _)
  have h4 := h2 course key
  have h5 := hb course key
  omega

/-- Under the data model (qualified course sets, hence duplicate-free lists),
the computed limit equals the count of qualified roster instructors with the
default 2 for courses no instructor covers. -/
theorem calculate_limits_eq_qualified (course : String) : ∀ l : List LabInstructor,
    (∀ i ∈ l, i.qualified_labs.Nodup) →
    calculate_instructor_limits l course
      = (l.filter (fun instructor => instructor.qualified_labs.contains course)).length := by
  intro l
  induction l with
  | nil => intro _; rfl
  | cons i rest ih =>
    intro h
    have hrest := ih (fun j hj => h j (List.mem_cons_of_mem i hj))
    by_cases hmem : course ∈ i.qualified_labs
    · have hcount : i.qualified_labs.count course = 1 :=
        List.count_eq_one_of_mem (h i (List.mem_cons_self i rest)) hmem
      have hcont : i.qualified_labs.contains course = true := List.elem_iff.mpr hmem
      simp only [calculate_instructor_limits, List.map_cons, List.sum_cons] at *
      rw [hcount, List.filter_cons,
        if_pos (show (fun instructor => instructor.qualified_labs.contains course) i = true
          from hcont)]
      simp only [List.length_cons]
      omega
    · have hcount : i.qualified_labs.count course = 0 :=
        List.count_eq_zero_of_not_mem hmem
      have hcont : i.qualified_labs.contains course = false := by
        rw [Bool.eq_false_iff]
        intro hc
        exact hmem (List.elem_iff.mp hc)
      have hcontn : ¬ ((fun instructor =>
          instructor.qualified_labs.contains course) i = true) := by
        intro hcc
        have hcc2 : i.qualified_labs.contains course = true := hcc
        rw [hcont] at hcc2
        exact Bool.false_ne_true hcc2
      simp only [calculate_instructor_limits, List.map_cons, List.sum_cons] at *
      rw [hcount, List.filter_cons, if_neg hcontn]
      omega

/-- The code's dynamic limit coincides with the specification's capacity. -/
theorem course_limit_eq_claim (cfg : SchedulerConfig)
    (hq : ∀ i ∈ cfg.lab_instructors, i.qualified_labs.Nodup) (course : String) :
    course_instructor_limit cfg course = claim_capacity cfg course := by
  unfold course_instructor_limit claim_capacity
  rw [calculate_limits_eq_qualified course cfg.lab_instructors hq]

/-- C4: throughout shared-cohort lab scheduling, the number of lab Assignments
of a course committed at one (day, slot) never exceeds the course's instructor
capacity — the count of qualified roster instructors, or 2 when no instructor
covers the course (instructors' qualified sets are duplicate-free per the data
model). -/
theorem C4_parallel_lab_capacity (cfg : SchedulerConfig) (O : RandomOracle)
    (st : SchedState) (k : Nat) (level : Int) (labs_data : List Lab)
    (hq : ∀ i ∈ cfg.lab_instructors, i.qualified_labs.Nodup) :
    ∀ rest : List Assignment,
    (schedule_labs cfg O st k level labs_data).1.assignments = st.assignments ++ rest →
    ∀ course key, countCourseSlot rest course key ≤ claim_capacity cfg course := by
  intro rest hrest course key
  obtain ⟨new, h1, h2⟩ := schedule_labs_cnt cfg O st k level labs_data
  have hEq : rest = new := List.append_cancel_left (hrest.symm.trans h1)
  subst hEq
  calc countCourseSlot rest course key ≤ course_instructor_limit cfg course :=
        h2 course key
    _ = claim_capacity cfg course := course_limit_eq_claim cfg hq course

/-- Witness for C4 on the empty catalog run. -/
theorem C4_parallel_lab_capacity_witness :
    countCourseSlot [] "CSC111" ("Sunday", 1) ≤ claim_capacity cfgEmpty "CSC111" := by
  exact C4_parallel_lab_capacity cfgEmpty oracleId init_state 0 1 [] (by simp [cfgEmpty])
    [] (by simp [schedule_labs, sort_labs, pySorted, schedule_labs_go, cfgEmpty])
    "CSC111" ("Sunday", 1)

/-- C8: the instructor assignment pass processes unstaffed labs sorted by
ascending qualified-instructor count; for one lab, candidates are the
hours-sorted qualified instructors and the first one passing the predicate is
bound, its hours growing by the session duration; a lab with no passing
candidate aborts the strict pass immediately (labs so far keep their
bindings) but is skipped by the tolerant pass, which always returns success
and reports the count of still-unstaffed labs. -/
theorem C8_instructor_pass_policies (sched_tracker : ScheduleTracker)
    (lab_instructors : List LabInstructor) (session_hours : Rat)
    (lab : Assignment) (rest : List Assignment) (tracker : InstructorTracker) :
    ((sort_by_hours tracker (lab_instructors.filter (fun instructor =>
          instructor.qualified_labs.contains lab.course_code))).find?
        (fun instructor =>
          (can_assign_instructor_to_lab instructor lab tracker sched_tracker
            session_hours).1) = none →
      assign_pass_strict_go sched_tracker lab_instructors session_hours (lab :: rest) tracker
        = (lab :: rest, tracker, false))
    ∧ ((sort_by_hours tracker (lab_instructors.filter (fun instructor =>
          instructor.qualified_labs.contains lab.course_code))).find?
        (fun instructor =>
          (can_assign_instructor_to_lab instructor lab tracker sched_tracker
            session_hours).1) = none →
      assign_pass_tolerant_go sched_tracker lab_instructors session_hours (lab :: rest) tracker
        = (lab :: (assign_pass_tolerant_go sched_tracker lab_instructors session_hours
              rest tracker).1,
           (assign_pass_tolerant_go sched_tracker lab_instructors session_hours
              rest tracker).2))
    ∧ (∀ instructor,
        (sort_by_hours tracker (lab_instructors.filter (fun instructor =>
            instructor.qualified_labs.contains lab.course_code))).find?
          (fun instructor =>
            (can_assign_instructor_to_lab instructor lab tracker sched_tracker
              session_hours).1) = some instructor →
        (can_assign_instructor_to_lab instructor lab tracker sched_tracker session_hours).1
            = true
        ∧ (tracker.assign instructor.instructor_id lab.time_slot.day
              lab.time_slot.slot_number lab.assignment_id session_hours).instructor_hours
              instructor.instructor_id
            = tracker.instructor_hours instructor.instructor_id + session_hours
        ∧ assign_pass_strict_go sched_tracker lab_instructors session_hours
              (lab :: rest) tracker
            = ({ lab with lab_instructor_id := some instructor.instructor_id,
                          lab_instructor_name := some instructor.instructor_name }
                :: (assign_pass_strict_go sched_tracker lab_instructors session_hours rest
                    (tracker.assign instructor.instructor_id lab.time_slot.day
                      lab.time_slot.slot_number lab.assignment_id session_hours)).1,
               (assign_pass_strict_go sched_tracker lab_instructors session_hours rest
                  (tracker.assign instructor.instructor_id lab.time_slot.day
                    lab.time_slot.slot_number lab.assignment_id session_hours)).2)
        ∧ assign_pass_tolerant_go sched_tracker lab_instructors session_hours
              (lab :: rest) tracker
            = ({ lab with lab_instructor_id := some instructor.instructor_id,
                          lab_instructor_name := some instructor.instructor_name }
                :: (assign_pass_tolerant_go sched_tracker lab_instructors session_hours rest
                    (tracker.assign instructor.instructor_id lab.time_slot.day
                      lab.time_slot.slot_number lab.assignment_id session_hours)).1,
               (assign_pass_tolerant_go sched_tracker lab_instructors session_hours rest
                  (tracker.assign instructor.instructor_id lab.time_slot.day
                    lab.time_slot.slot_number lab.assignment_id session_hours)).2))
    ∧ (∀ A : List Assignment,
        (assign_instructors_to_labs_tolerant A sched_tracker lab_instructors
          session_hours).2.2.2 = true)
    ∧ (∀ A : List Assignment,
        assign_instructors_to_labs_strict A sched_tracker lab_instructors session_hours
          = assign_pass_strict_go sched_tracker lab_instructors session_hours
              (sort_labs_by_constraint lab_instructors
                (A.filter (fun a => a.type = "lab")))
              { InstructorTracker.init with
                  instructors := build_instructor_pool lab_instructors }) := by
  refine ⟨?_, ?_, ?_, fun A => rfl, fun A => rfl⟩
  · intro hF
    simp only [assign_pass_strict_go]
    rw [hF]
  · intro hF
    simp only [assign_pass_tolerant_go]
    rw [hF]
  · intro instructor hF
    have hpred := List.find?_some hF
    refine ⟨hpred, by simp [InstructorTracker.assign], ?_, ?_⟩
    · simp only [assign_pass_strict_go]
      rw [hF]
    · simp only [assign_pass_tolerant_go]
      rw [hF]

/-- Witness for C8: the single qualified unlimited TA passes the predicate,
is bound with hours grown by one session, and the tolerant pass succeeds. -/
theorem C8_instructor_pass_policies_witness :
    (can_assign_instructor_to_lab instr2 labW poolTrW ScheduleTracker.init (3/2)).1 = true
    ∧ (poolTrW.assign instr2.instructor_id labW.time_slot.day labW.time_slot.slot_number
        labW.assignment_id (3/2)).instructor_hours instr2.instructor_id
      = poolTrW.instructor_hours instr2.instructor_id + 3/2
    ∧ (assign_instructors_to_labs_tolerant [labW] ScheduleTracker.init [instr2]
        (3/2)).2.2.2 = true := by
  have H := C8_instructor_pass_policies ScheduleTracker.init [instr2] (3/2) labW [] poolTrW
  obtain ⟨h1, h2, _, _⟩ := H.2.2.1 instr2 (by rfl)
  exact ⟨h1, h2, H.2.2.2.1 [labW]⟩

/-- A room reported free by the tracker holds no assignment id. -/
theorem is_room_available_eq_none (t : ScheduleTracker) (r d : String) (s : Int)
    (h : t.is_room_available r d s = true) : t.room_schedule r d s = none := by
  simpa [ScheduleTracker.is_room_available, Option.isNone_iff_eq_none] using h

/-- Appending one Assignment whose room key was free, while the tracker marks
exactly that key, preserves the room invariant. -/
theorem roomOk_append (tr tr2 : ScheduleTracker) (l : List Assignment) (a : Assignment)
    (aid : String)
    (hfree : tr.room_schedule a.room a.time_slot.day a.time_slot.slot_number = none)
    (hupd : ∀ r d s2, tr2.room_schedule r d s2
        = if r = a.room ∧ d = a.time_slot.day ∧ s2 = a.time_slot.slot_number then some aid
          else tr.room_schedule r d s2)
    (h1 : NoRoomClash l)
    (h2 : ∀ x ∈ l, tr.room_schedule x.room x.time_slot.day x.time_slot.slot_number ≠ none) :
    NoRoomClash (l ++ [a])
    ∧ ∀ x ∈ l ++ [a],
        tr2.room_schedule x.room x.time_slot.day x.time_slot.slot_number ≠ none := by
  constructor
  · rw [NoRoomClash, List.pairwise_append]
    refine ⟨h1, List.pairwise_singleton _ _, ?_⟩
    intro x hx b hb
    rw [List.mem_singleton] at hb
    intro hkey
    rw [hb] at hkey
    have hx2 := h2 x hx
    obtain ⟨e1, e2, e3⟩ : x.room = a.room ∧ x.time_slot.day = a.time_slot.day
        ∧ x.time_slot.slot_number = a.time_slot.slot_number := by
      simpa [Assignment.roomKey, Prod.ext_iff] using hkey
    rw [e1, e2, e3] at hx2
    exact hx2 hfree
  · intro x hx
    rcases List.mem_append.mp hx with hmem | hmem
    · rw [hupd]
      split
      · simp
      · exact h2 x hmem
    · rw [List.mem_singleton] at hmem
      subst hmem
      rw [hupd, if_pos ⟨rfl, rfl, rfl⟩]
      simp

/-- Committing a shared-cohort lecture into a free room preserves the room
invariant. -/
theorem commit_lecture_roomOk (st : SchedState) (lecture : Lecture) (group : Group)
    (room : Room) (ts : TimeSlot)
    (hfree : st.tracker.is_room_available room.room_code ts.day ts.slot_number = true)
    (hok : RoomOk st) : RoomOk (commit_lecture st lecture group room ts) := by
  obtain ⟨h1, h2⟩ := hok
  have H := roomOk_append st.tracker (commit_lecture st lecture group room ts).tracker
    st.assignments (lecture_assignment st lecture group room ts) ((gen_assignment_id st).1)
    (is_room_available_eq_none _ _ _ _ hfree) (fun r d s2 => rfl) h1 h2
  refine ⟨?_, ?_⟩
  · rw [commit_lecture_assignments]
    exact H.1
  · intro x hx
    rw [commit_lecture_assignments] at hx
    exact H.2 x hx

/-- Committing a department lecture (also used slotwise by the graduation
project) into a free room preserves the room invariant. -/
theorem commit_dept_lecture_roomOk (st : SchedState) (lecture : Lecture) (g : Group)
    (rc : String) (ts : TimeSlot)
    (hfree : st.tracker.is_room_available rc ts.day ts.slot_number = true)
    (hok : RoomOk st) : RoomOk (commit_dept_lecture st lecture g rc ts) := by
  obtain ⟨h1, h2⟩ := hok
  have H := roomOk_append st.tracker (commit_dept_lecture st lecture g rc ts).tracker
    st.assignments (dept_lecture_assignment st lecture g rc ts) ((gen_assignment_id st).1)
    (is_room_available_eq_none _ _ _ _ hfree) (fun r d s2 => rfl) h1 h2
  refine ⟨?_, ?_⟩
  · rw [commit_dept_lecture_assignments]
    exact H.1
  · intro x hx
    rw [commit_dept_lecture_assignments] at hx
    exact H.2 x hx

/-- Committing a shared-cohort lab into a free room preserves the room
invariant. -/
theorem commit_lab_roomOk (st : SchedState) (lab : Lab) (sec : SectionRec)
    (rc : String) (ts : TimeSlot)
    (hfree : st.tracker.is_room_available rc ts.day ts.slot_number = true)
    (hok : RoomOk st) : RoomOk (commit_lab st lab sec rc ts) := by
  obtain ⟨h1, h2⟩ := hok
  have H := roomOk_append st.tracker (commit_lab st lab sec rc ts).tracker
    st.assignments (lab_assignment st lab sec rc ts) ((gen_assignment_id st).1)
    (is_room_available_eq_none _ _ _ _ hfree) (fun r d s2 => rfl) h1 h2
  refine ⟨?_, ?_⟩
  · rw [commit_lab_assignments_eq]
    exact H.1
  · intro x hx
    rw [commit_lab_assignments_eq] at hx
    exact H.2 x hx

/-- Committing a staffed department lab into a free room preserves the room
invariant. -/
theorem commit_dept_lab_roomOk (d : DeptLabState) (lab : Lab) (sec : SectionRec)
    (instructor : LabInstructor) (rc : String) (ts : TimeSlot)
    (hfree : d.st.tracker.is_room_available rc ts.day ts.slot_number = true)
    (hok : RoomOk d.st) : RoomOk (commit_dept_lab d lab sec instructor rc ts).st := by
  obtain ⟨h1, h2⟩ := hok
  have H := roomOk_append d.st.tracker
    (commit_dept_lab d lab sec instructor rc ts).st.tracker
    d.st.assignments (dept_lab_assignment d lab sec instructor rc ts)
    ((gen_assignment_id d.st).1)
    (is_room_available_eq_none _ _ _ _ hfree) (fun r d2 s2 => rfl) h1 h2
  refine ⟨?_, ?_⟩
  · rw [commit_dept_lab_assignments]
    exact H.1
  · intro x hx
    rw [commit_dept_lab_assignments] at hx
    exact H.2 x hx

/-- Committing the graduation-project block slotwise preserves the room
invariant when all slots of the day are distinct and free. -/
theorem commit_gp_slots_roomOk (lecture : Lecture) (g : Group) (rc : String) :
    ∀ (slots : List TimeSlot) (st : SchedState),
    TSKeys slots →
    (∀ ts ∈ slots, st.tracker.is_room_available rc ts.day ts.slot_number = true) →
    RoomOk st → RoomOk (commit_gp_slots lecture g rc slots st) := by
  intro slots
  induction slots with
  | nil =>
    intro st _ _ hok
    simpa [commit_gp_slots] using hok
  | cons ts rest ih =>
    intro st hkeys hall hok
    simp only [commit_gp_slots]
    apply ih
    · exact (List.pairwise_cons.mp hkeys).2
    · intro ts2 hts2
      have hne := (List.pairwise_cons.mp hkeys).1 ts2 hts2
      have hfree2 := hall ts2 (List.mem_cons_of_mem ts hts2)
      have hupd : (commit_dept_lecture st lecture g rc ts).tracker.room_schedule
          rc ts2.day ts2.slot_number
          = if rc = rc ∧ ts2.day = ts.day ∧ ts2.slot_number = ts.slot_number then
              some ((gen_assignment_id st).1)
            else st.tracker.room_schedule rc ts2.day ts2.slot_number := rfl
      have hcond : ¬ (rc = rc ∧ ts2.day = ts.day ∧ ts2.slot_number = ts.slot_number) := by
        rintro ⟨-, hd, hs⟩
        exact hne (by rw [hd, hs])
      show ((commit_dept_lecture st lecture g rc ts).tracker.room_schedule
        rc ts2.day ts2.slot_number).isNone = true
      rw [hupd, if_neg hcond]
      exact hfree2
    · exact commit_dept_lecture_roomOk st lecture g rc ts
        (hall ts (List.mem_cons_self ts rest)) hok

/-- The room delivered by the lecture first-fit rule is free. -/
theorem first_valid_slot_some_free (cfg : SchedulerConfig) (st : SchedState)
    (lecture : Lecture) (group : Group) (slots : List TimeSlot) (ts : TimeSlot)
    (room : Room)
    (h : first_valid_slot cfg st lecture group slots = some (ts, room)) :
    st.tracker.is_room_available room.room_code ts.day ts.slot_number = true := by
  unfold first_valid_slot at h
  cases hfind : slots.find? (fun ts => lecture_slot_ok cfg st lecture group ts) with
  | none =>
    rw [hfind] at h
    simp at h
  | some ts0 =>
    rw [hfind] at h
    have h2 : ((lec_rooms cfg).find? (fun room =>
        st.tracker.is_room_available room.room_code ts0.day ts0.slot_number)).map
          (fun room => (ts0, room)) = some (ts, room) := h
    cases hr : (lec_rooms cfg).find? (fun room =>
        st.tracker.is_room_available room.room_code ts0.day ts0.slot_number) with
    | none =>
      rw [hr] at h2
      simp at h2
    | some room0 =>
      rw [hr] at h2
      have hpred := List.find?_some hr
      obtain ⟨e1, e2⟩ : ts0 = ts ∧ room0 = room := by
        simpa [Prod.ext_iff] using h2
      rw [← e1, ← e2]
      exact hpred

/-- One successful lecture placement preserves the room invariant. -/
theorem try_lecture_slots_roomOk (cfg : SchedulerConfig) (st : SchedState)
    (lecture : Lecture) (group : Group) (slots : List TimeSlot) (st2 : SchedState)
    (hok : RoomOk st) (h : try_lecture_slots cfg st lecture group slots = some st2) :
    RoomOk st2 := by
  rw [try_lecture_slots_eq_first_fit] at h
  cases hfv : first_valid_slot cfg st lecture group slots with
  | none =>
    rw [hfv] at h
    simp at h
  | some p =>
    rcases p with ⟨ts, room⟩
    rw [hfv] at h
    have h2 : commit_lecture st lecture group room ts = st2 := by
      simpa using h
    have hfree := first_valid_slot_some_free cfg st lecture group slots ts room hfv
    rw [← h2]
    exact commit_lecture_roomOk st lecture group room ts hfree hok

/-- The lecture group loop preserves the room invariant. -/
theorem schedule_lecture_groups_roomOk (cfg : SchedulerConfig) (lecture : Lecture) :
    ∀ (groups : List Group) (st : SchedState),
    RoomOk st → RoomOk (schedule_lecture_groups cfg lecture st groups).1 := by
  intro groups
  induction groups with
  | nil =>
    intro st hok
    simpa [schedule_lecture_groups] using hok
  | cons g gs ih =>
    intro st hok
    cases htaken : st.tracker.has_group_taken_lecture g.group_id lecture.course_code with
    | true =>
      have hstep : schedule_lecture_groups cfg lecture st (g :: gs)
          = schedule_lecture_groups cfg lecture st gs := by
        simp [schedule_lecture_groups, htaken]
      rw [hstep]
      exact ih st hok
    | false =>
      cases htry : try_lecture_slots cfg st lecture g cfg.time_slots with
      | none =>
        have hstep : schedule_lecture_groups cfg lecture st (g :: gs) = (st, false) := by
          simp [schedule_lecture_groups, htaken, htry]
        rw [hstep]
        exact hok
      | some st2 =>
        have hstep : schedule_lecture_groups cfg lecture st (g :: gs)
            = schedule_lecture_groups cfg lecture st2 gs := by
          simp [schedule_lecture_groups, htaken, htry]
        rw [hstep]
        exact ih st2 (try_lecture_slots_roomOk cfg st lecture g cfg.time_slots st2 hok htry)

/-- The lecture course loop preserves the room invariant. -/
theorem schedule_lectures_go_roomOk (cfg : SchedulerConfig) (level_groups : List Group) :
    ∀ (lectures : List Lecture) (st : SchedState),
    RoomOk st → RoomOk (schedule_lectures_go cfg level_groups st lectures).1 := by
  intro lectures
  induction lectures with
  | nil =>
    intro st hok
    simpa [schedule_lectures_go] using hok
  | cons lecture rest ih =>
    intro st hok
    rcases hg : schedule_lecture_groups cfg lecture st level_groups with ⟨st2, b⟩
    have hok2 : RoomOk st2 := by
      have := schedule_lecture_groups_roomOk cfg lecture level_groups st hok
      rw [hg] at this
      exact this
    cases b with
    | true =>
      have hstep : schedule_lectures_go cfg level_groups st (lecture :: rest)
          = schedule_lectures_go cfg level_groups st2 rest := by
        simp [schedule_lectures_go, hg]
      rw [hstep]
      exact ih st2 hok2
    | false =>
      have hstep : schedule_lectures_go cfg level_groups st (lecture :: rest)
          = (st2, false) := by
        simp [schedule_lectures_go, hg]
      rw [hstep]
      exact hok2

/-- The whole lecture phase preserves the room invariant. -/
theorem schedule_lectures_roomOk (cfg : SchedulerConfig) (st : SchedState) (level : Int)
    (lectures_data : List Lecture) (hok : RoomOk st) :
    RoomOk (schedule_lectures cfg st level lectures_data).1 :=
  schedule_lectures_go_roomOk cfg _ _ st hok

/-- A room delivered by the lab room picker is free. -/
theorem lab_room_pick_free (cfg : SchedulerConfig) (O : RandomOracle) (st : SchedState)
    (lab : Lab) (ts : TimeSlot) (k : Nat) (rc : String) (k2 : Nat)
    (h : lab_room_pick cfg O st lab ts k = (some rc, k2)) :
    st.tracker.is_room_available rc ts.day ts.slot_number = true := by
  unfold lab_room_pick at h
  split at h
  · have hfst := congrArg Prod.fst h
    dsimp only at hfst
    split at hfst
    next havail =>
      have := Option.some.inj hfst
      rw [← this]
      exact havail
    next => simp at hfst
  · have hfst := congrArg Prod.fst h
    dsimp only at hfst
    cases hr : (O.shuffle_rooms k (lab_rooms cfg)).find?
        (fun room => st.tracker.is_room_available room.room_code ts.day ts.slot_number) with
    | none =>
      rw [hr] at hfst
      simp at hfst
    | some room =>
      rw [hr] at hfst
      have hpred := List.find?_some hr
      have hrc : room.room_code = rc := by simpa using hfst
      rw [← hrc]
      exact hpred

/-- One successful shared-cohort lab placement preserves the room invariant. -/
theorem try_lab_slots_roomOk (cfg : SchedulerConfig) (O : RandomOracle) (lab : Lab)
    (sec : SectionRec) (st : SchedState) (cnt : UsageCnt) :
    ∀ (slots : List TimeSlot) (k : Nat) (st2 : SchedState) (cnt2 : UsageCnt) (k2 : Nat),
    RoomOk st →
    try_lab_slots cfg O lab sec st cnt slots k = (some (st2, cnt2), k2) →
    RoomOk st2 := by
  intro slots
  induction slots with
  | nil =>
    intro k st2 cnt2 k2 _ h
    exact absurd h (by simp [try_lab_slots])
  | cons ts rest ih =>
    intro k st2 cnt2 k2 hok h
    rw [try_lab_slots] at h
    split at h
    · exact ih k st2 cnt2 k2 hok h
    · split at h
      · exact ih k st2 cnt2 k2 hok h
      · split at h
        next k3 hpick => exact ih k3 st2 cnt2 k2 hok h
        next rc k3 hpick =>
          have hfst := congrArg Prod.fst h
          have hpair := Option.some.inj hfst
          have hst2 : commit_lab st lab sec rc ts = st2 := congrArg Prod.fst hpair
          have hfree := lab_room_pick_free cfg O st lab ts k rc k3 hpick
          rw [← hst2]
          exact commit_lab_roomOk st lab sec rc ts hfree hok

/-- The shared-cohort lab section loop preserves the room invariant. -/
theorem schedule_labs_sections_roomOk (cfg : SchedulerConfig) (O : RandomOracle)
    (lab : Lab) : ∀ (secs : List SectionRec) (st : SchedState) (cnt : UsageCnt) (k : Nat),
    RoomOk st → RoomOk (schedule_labs_sections cfg O lab secs st cnt k).1 := by
  intro secs
  induction secs with
  | nil =>
    intro st cnt k hok
    simpa [schedule_labs_sections] using hok
  | cons sec rest ih =>
    intro st cnt k hok
    cases htaken : st.tracker.has_section_taken_lab sec.section_id lab.course_code with
    | true =>
      have hstep : schedule_labs_sections cfg O lab (sec :: rest) st cnt k
          = schedule_labs_sections cfg O lab rest st cnt k := by
        simp [schedule_labs_sections, htaken]
      rw [hstep]
      exact ih st cnt k hok
    | false =>
      rcases htry : try_lab_slots cfg O lab sec st cnt (O.shuffle_slots k cfg.time_slots)
        (k + 1) with ⟨res, k2⟩
      cases res with
      | none =>
        have hstep : schedule_labs_sections cfg O lab (sec :: rest) st cnt k
            = (st, cnt, k2, false) := by
          simp [schedule_labs_sections, htaken, htry]
        rw [hstep]
        exact hok
      | some p =>
        rcases p with ⟨st2, cnt2⟩
        have hstep : schedule_labs_sections cfg O lab (sec :: rest) st cnt k
            = schedule_labs_sections cfg O lab rest st2 cnt2 k2 := by
          simp [schedule_labs_sections, htaken, htry]
        rw [hstep]
        exact ih st2 cnt2 k2
          (try_lab_slots_roomOk cfg O lab sec st cnt (O.shuffle_slots k cfg.time_slots)
            (k + 1) st2 cnt2 k2 hok htry)

/-- The shared-cohort lab course loop preserves the room invariant. -/
theorem schedule_labs_go_roomOk (cfg : SchedulerConfig) (O : RandomOracle)
    (level_sections : List SectionRec) :
    ∀ (labs : List Lab) (st : SchedState) (cnt : UsageCnt) (k : Nat),
    RoomOk st → RoomOk (schedule_labs_go cfg O level_sections labs st cnt k).1 := by
  intro labs
  induction labs with
  | nil =>
    intro st cnt k hok
    simpa [schedule_labs_go] using hok
  | cons lab rest ih =>
    intro st cnt k hok
    rcases hsec : schedule_labs_sections cfg O lab level_sections st cnt k
      with ⟨st2, cnt2, k2, b⟩
    have hok2 : RoomOk st2 := by
      have := schedule_labs_sections_roomOk cfg O lab level_sections st cnt k hok
      rw [hsec] at this
      exact this
    cases b with
    | true =>
      have hstep : schedule_labs_go cfg O level_sections (lab :: rest) st cnt k
          = schedule_labs_go cfg O level_sections rest st2 cnt2 k2 := by
        simp [schedule_labs_go, hsec]
      rw [hstep]
      exact ih st2 cnt2 k2 hok2
    | false =>
      have hstep : schedule_labs_go cfg O level_sections (lab :: rest) st cnt k
          = (st2, cnt2, k2, false) := by
        simp [schedule_labs_go, hsec]
      rw [hstep]
      exact hok2

/-- The whole shared-cohort lab phase preserves the room invariant. -/
theorem schedule_labs_roomOk (cfg : SchedulerConfig) (O : RandomOracle) (st : SchedState)
    (k : Nat) (level : Int) (labs_data : List Lab) (hok : RoomOk st) :
    RoomOk (schedule_labs cfg O st k level labs_data).1 :=
  schedule_labs_go_roomOk cfg O _ _ st (fun _ _ => 0) k hok

/-- One successful department-lecture placement preserves the room
invariant. -/
theorem try_dept_lecture_slots_roomOk (cfg : SchedulerConfig) (lecture : Lecture)
    (g : Group) (st : SchedState) :
    ∀ (slots : List TimeSlot) (st2 : SchedState),
    RoomOk st → try_dept_lecture_slots cfg lecture g st slots = some st2 → RoomOk st2 := by
  intro slots
  induction slots with
  | nil =>
    intro st2 _ h
    exact absurd h (by simp [try_dept_lecture_slots])
  | cons ts rest ih =>
    intro st2 hok h
    rw [try_dept_lecture_slots] at h
    split at h
    · exact ih st2 hok h
    · split at h
      · exact ih st2 hok h
      · split at h
        next hfind => exact ih st2 hok h
        next room hfind =>
          have hpred := List.find?_some hfind
          have hst2 := Option.some.inj h
          rw [← hst2]
          exact commit_dept_lecture_roomOk st lecture g room.room_code ts hpred hok

/-- The department-lecture loop preserves the room invariant. -/
theorem schedule_dept_lectures_go_roomOk (cfg : SchedulerConfig) (g : Group) :
    ∀ (lectures : List Lecture) (st : SchedState),
    RoomOk st → RoomOk (schedule_dept_lectures_go cfg g st lectures).1 := by
  intro lectures
  induction lectures with
  | nil =>
    intro st hok
    simpa [schedule_dept_lectures_go] using hok
  | cons lecture rest ih =>
    intro st hok
    cases htaken : st.tracker.has_group_taken_lecture g.group_id lecture.course_code with
    | true =>
      have hstep : schedule_dept_lectures_go cfg g st (lecture :: rest)
          = schedule_dept_lectures_go cfg g st rest := by
        simp [schedule_dept_lectures_go, htaken]
      rw [hstep]
      exact ih st hok
    | false =>
      cases htry : try_dept_lecture_slots cfg lecture g st cfg.time_slots with
      | none =>
        have hstep : schedule_dept_lectures_go cfg g st (lecture :: rest) = (st, false) := by
          simp [schedule_dept_lectures_go, htaken, htry]
        rw [hstep]
        exact hok
      | some st2 =>
        have hstep : schedule_dept_lectures_go cfg g st (lecture :: rest)
            = schedule_dept_lectures_go cfg g st2 rest := by
          simp [schedule_dept_lectures_go, htaken, htry]
        rw [hstep]
        exact ih st2 (try_dept_lecture_slots_roomOk cfg lecture g st cfg.time_slots st2
          hok htry)

/-- The department-lecture phase preserves the room invariant. -/
theorem schedule_department_lectures_roomOk (cfg : SchedulerConfig) (st : SchedState)
    (level : Int) (department : String) (lectures_data : List Lecture)
    (hok : RoomOk st) :
    RoomOk (schedule_department_lectures cfg st level department lectures_data).1 := by
  unfold schedule_department_lectures
  split
  · exact hok
  · exact schedule_dept_lectures_go_roomOk cfg _ lectures_data st hok

/-- One department-lab pair preserves the room invariant (sound selection
oracle). -/
theorem dept_lab_pair_roomOk (cfg : SchedulerConfig) (O : RandomOracle) (lab : Lab)
    (qualified : List LabInstructor) (d : DeptLabState) (k : Nat) (sec : SectionRec)
    (hsel : O.SelectsMember) (hok : RoomOk d.st) :
    RoomOk (dept_lab_pair cfg O lab qualified d k sec).1.st := by
  unfold dept_lab_pair
  split
  · exact hok
  · split
    next hc => exact hok
    next c cs hc =>
      dsimp only
      split
      next => exact hok
      next instructor hfind =>
        have hmem : O.select_candidate k c cs ∈
            cfg.time_slots.filterMap (dept_valid_slot? cfg d lab qualified sec) := by
          rw [hc]
          exact hsel k c cs
        have hfree := (dept_candidate_mem cfg d lab qualified sec _ hmem).2
        exact commit_dept_lab_roomOk d lab sec instructor _ _ hfree hok

/-- The department-lab section loop preserves the room invariant. -/
theorem dept_lab_sections_roomOk (cfg : SchedulerConfig) (O : RandomOracle) (lab : Lab)
    (qualified : List LabInstructor) (hsel : O.SelectsMember) :
    ∀ (secs : List SectionRec) (d : DeptLabState) (k : Nat),
    RoomOk d.st → RoomOk (dept_lab_sections cfg O lab qualified secs d k).1.st := by
  intro secs
  induction secs with
  | nil =>
    intro d k hok
    simpa [dept_lab_sections] using hok
  | cons sec rest ih =>
    intro d k hok
    have hstep : dept_lab_sections cfg O lab qualified (sec :: rest) d k
        = dept_lab_sections cfg O lab qualified rest
            (dept_lab_pair cfg O lab qualified d k sec).1
            (dept_lab_pair cfg O lab qualified d k sec).2 := rfl
    rw [hstep]
    exact ih _ _ (dept_lab_pair_roomOk cfg O lab qualified d k sec hsel hok)

/-- The department-lab course loop preserves the room invariant. -/
theorem dept_lab_courses_roomOk (cfg : SchedulerConfig) (O : RandomOracle)
    (dept_sections : List SectionRec) (hsel : O.SelectsMember) :
    ∀ (labs : List Lab) (d : DeptLabState) (k : Nat),
    RoomOk d.st → RoomOk (dept_lab_courses cfg O dept_sections labs d k).1.st := by
  intro labs
  induction labs with
  | nil =>
    intro d k hok
    simpa [dept_lab_courses] using hok
  | cons lab rest ih =>
    intro d k hok
    have hstep : dept_lab_courses cfg O dept_sections (lab :: rest) d k
        = dept_lab_courses cfg O dept_sections rest
            (dept_lab_sections cfg O lab
              (cfg.lab_instructors.filter (fun instructor =>
                instructor.qualified_labs.contains lab.course_code)) dept_sections d k).1
            (dept_lab_sections cfg O lab
              (cfg.lab_instructors.filter (fun instructor =>
                instructor.qualified_labs.contains lab.course_code)) dept_sections d k).2 :=
      rfl
    rw [hstep]
    exact ih _ _ (dept_lab_sections_roomOk cfg O lab _ hsel dept_sections d k hok)

/-- The department-lab phase preserves the room invariant. -/
theorem schedule_department_labs_roomOk (cfg : SchedulerConfig) (O : RandomOracle)
    (st : SchedState) (k : Nat) (level : Int) (department : String)
    (labs_data : List Lab) (hsel : O.SelectsMember) (hok : RoomOk st) :
    RoomOk (schedule_department_labs cfg O st k level department labs_data).1 := by
  unfold schedule_department_labs
  dsimp only
  split
  · exact hok
  · exact dept_lab_courses_roomOk cfg O _ hsel labs_data ⟨st, fun _ _ => 0, fun _ => []⟩
      k hok

/-- The graduation-project day scan preserves the room invariant. -/
theorem gp_try_days_roomOk (cfg : SchedulerConfig) (lecture : Lecture) (g : Group)
    (hkeys : TSKeys cfg.time_slots) :
    ∀ (days : List String) (st : SchedState),
    RoomOk st → RoomOk (gp_try_days cfg lecture g st days).1 := by
  intro days
  induction days with
  | nil =>
    intro st hok
    simpa [gp_try_days] using hok
  | cons day rest ih =>
    intro st hok
    cases hday : gp_day_ok cfg st lecture g day with
    | false =>
      rw [gp_try_days_skip cfg lecture g st day rest hday]
      exact ih st hok
    | true =>
      obtain ⟨room, hroom, heq⟩ := gp_try_days_accept cfg lecture g st day rest hday
      rw [heq]
      apply commit_gp_slots_roomOk
      · exact List.Pairwise.sublist (List.filter_sublist _) hkeys
      · have hpredF := List.find?_some hroom
        have hpred : (cfg.time_slots.filter (fun ts => decide (ts.day = day))).all
            (fun ts => st.tracker.is_room_available room.room_code ts.day ts.slot_number)
              = true := hpredF
        intro ts hts
        exact List.all_eq_true.mp hpred ts hts
      · exact hok

/-- The graduation-project phase preserves the room invariant. -/
theorem schedule_graduation_project_roomOk (cfg : SchedulerConfig) (st : SchedState)
    (level : Int) (department : String) (gp_lecture : Lecture) (st2 : SchedState)
    (b : Bool) (hkeys : TSKeys cfg.time_slots)
    (h : schedule_graduation_project cfg st level department gp_lecture = some (st2, b))
    (hok : RoomOk st) : RoomOk st2 := by
  unfold schedule_graduation_project at h
  dsimp only at h
  split at h
  · have hp := Option.some.inj h
    have h1 : st = st2 := congrArg Prod.fst hp
    rw [← h1]
    exact hok
  · split at h
    · exact absurd h (by simp)
    next g gs hg =>
      have hpair := Option.some.inj h
      have h2 : st2 = (gp_try_days cfg gp_lecture g st gp_days).1 := by
        rw [hpair]
      rw [h2]
      exact gp_try_days_roomOk cfg gp_lecture g hkeys gp_days st hok

/-- The level-3 department loop preserves the room invariant. -/
theorem run_l3_depts_roomOk (cfg : SchedulerConfig) (O : RandomOracle)
    (hsel : O.SelectsMember) :
    ∀ (depts : List String) (st : SchedState) (k : Nat),
    RoomOk st → RoomOk (run_l3_depts cfg O depts st k).1 := by
  intro depts
  induction depts with
  | nil =>
    intro st k hok
    simpa [run_l3_depts] using hok
  | cons dept rest ih =>
    intro st k hok
    rcases hlec : schedule_department_lectures cfg st 3 dept
      (cfg.level_3_data dept).lectures with ⟨st2, b1⟩
    have hok2 : RoomOk st2 := by
      have := schedule_department_lectures_roomOk cfg st 3 dept
        (cfg.level_3_data dept).lectures hok
      rw [hlec] at this
      exact this
    cases b1 with
    | false =>
      have hstep : run_l3_depts cfg O (dept :: rest) st k = (st2, k, false) := by
        simp [run_l3_depts, hlec]
      rw [hstep]
      exact hok2
    | true =>
      rcases hlab : schedule_department_labs cfg O st2 k 3 dept
        (cfg.level_3_data dept).labs with ⟨st3, k2, b2⟩
      have hok3 : RoomOk st3 := by
        have := schedule_department_labs_roomOk cfg O st2 k 3 dept
          (cfg.level_3_data dept).labs hsel hok2
        rw [hlab] at this
        exact this
      cases b2 with
      | false =>
        have hstep : run_l3_depts cfg O (dept :: rest) st k = (st3, k2, false) := by
          simp [run_l3_depts, hlec, hlab]
        rw [hstep]
        exact hok3
      | true =>
        have hstep : run_l3_depts cfg O (dept :: rest) st k
            = run_l3_depts cfg O rest st3 k2 := by
          simp [run_l3_depts, hlec, hlab]
        rw [hstep]
        exact ih st3 k2 hok3

/-- The graduation-project step of a level-4 department preserves the room
invariant. -/
theorem run_l4_gp_roomOk (cfg : SchedulerConfig) (st : SchedState) (dept : String)
    (gps : List Lecture) (st2 : SchedState) (b : Bool) (hkeys : TSKeys cfg.time_slots)
    (h : run_l4_gp cfg st dept gps = some (st2, b)) (hok : RoomOk st) : RoomOk st2 := by
  unfold run_l4_gp at h
  split at h
  · have hp := Option.some.inj h
    have h1 : st = st2 := congrArg Prod.fst hp
    rw [← h1]
    exact hok
  · exact schedule_graduation_project_roomOk cfg st 4 dept _ st2 b hkeys h hok

/-- The level-4 department loop preserves the room invariant. -/
theorem run_l4_depts_roomOk (cfg : SchedulerConfig) (O : RandomOracle)
    (hsel : O.SelectsMember) (hkeys : TSKeys cfg.time_slots) :
    ∀ (depts : List String) (st : SchedState) (k : Nat) (st2 : SchedState) (k2 : Nat)
      (b : Bool),
    run_l4_depts cfg O depts st k = some (st2, k2, b) →
    RoomOk st → RoomOk st2 := by
  intro depts
  induction depts with
  | nil =>
    intro st k st2 k2 b h hok
    simp only [run_l4_depts] at h
    have hp := Option.some.inj h
    have h1 : st = st2 := congrArg Prod.fst hp
    rw [← h1]
    exact hok
  | cons dept rest ih =>
    intro st k st2 k2 b h hok
    rw [run_l4_depts] at h
    rcases hlec : schedule_department_lectures cfg st 4 dept
      ((cfg.level_4_data dept).lectures.filter (fun l => l.is_graduation_project = false))
      with ⟨stA, b1⟩
    rw [hlec] at h
    have hokA : RoomOk stA := by
      have := schedule_department_lectures_roomOk cfg st 4 dept
        ((cfg.level_4_data dept).lectures.filter
          (fun l => l.is_graduation_project = false)) hok
      rw [hlec] at this
      exact this
    cases b1 with
    | false =>
      dsimp only at h
      have hp := Option.some.inj h
      have h1 : stA = st2 := congrArg Prod.fst hp
      rw [← h1]
      exact hokA
    | true =>
      dsimp only at h
      rcases hgp : run_l4_gp cfg stA dept
        ((cfg.level_4_data dept).lectures.filter (fun l => l.is_graduation_project))
        with _ | p
      · rw [hgp] at h
        exact absurd h (by simp)
      · rcases p with ⟨stB, b2⟩
        rw [hgp] at h
        have hokB : RoomOk stB := run_l4_gp_roomOk cfg stA dept _ stB b2 hkeys hgp hokA
        cases b2 with
        | false =>
          dsimp only at h
          have hp := Option.some.inj h
          have h1 : stB = st2 := congrArg Prod.fst hp
          rw [← h1]
          exact hokB
        | true =>
          dsimp only at h
          rcases hlab : schedule_department_labs cfg O stB k 4 dept
            (cfg.level_4_data dept).labs with ⟨stC, k3, b3⟩
          rw [hlab] at h
          have hokC : RoomOk stC := by
            have := schedule_department_labs_roomOk cfg O stB k 4 dept
              (cfg.level_4_data dept).labs hsel hokB
            rw [hlab] at this
            exact this
          cases b3 with
          | false =>
            dsimp only at h
            have hp := Option.some.inj h
            have h1 : stC = st2 := congrArg Prod.fst hp
            rw [← h1]
            exact hokC
          | true =>
            dsimp only at h
            exact ih stC k3 st2 k2 b h hokC

/-- The whole scheduling run preserves the room invariant from the fresh
state. -/
theorem generate_schedule_roomOk (cfg : SchedulerConfig) (O : RandomOracle)
    (hsel : O.SelectsMember) (hkeys : TSKeys cfg.time_slots) (st : SchedState) (b : Bool)
    (h : generate_schedule cfg O = some (st, b)) : RoomOk st := by
  have hok0 : RoomOk init_state := ⟨List.Pairwise.nil, by simp [init_state]⟩
  rw [generate_schedule] at h
  rcases h1 : schedule_lectures cfg init_state 1 cfg.level_1_data.lectures with ⟨st1, c1⟩
  rw [h1] at h
  have hokA : RoomOk st1 := by
    have := schedule_lectures_roomOk cfg init_state 1 cfg.level_1_data.lectures hok0
    rw [h1] at this
    exact this
  cases c1 with
  | false =>
    dsimp only at h
    have hp := Option.some.inj h
    have he : st1 = st := congrArg Prod.fst hp
    rw [← he]
    exact hokA
  | true =>
    dsimp only at h
    rcases h2 : schedule_lectures cfg st1 2 cfg.level_2_data.lectures with ⟨st2, c2⟩
    rw [h2] at h
    have hokB : RoomOk st2 := by
      have := schedule_lectures_roomOk cfg st1 2 cfg.level_2_data.lectures hokA
      rw [h2] at this
      exact this
    cases c2 with
    | false =>
      dsimp only at h
      have hp := Option.some.inj h
      have he : st2 = st := congrArg Prod.fst hp
      rw [← he]
      exact hokB
    | true =>
      dsimp only at h
      rcases h3 : schedule_labs cfg O st2 0 1 cfg.level_1_data.labs with ⟨st3, cnt3, k3, c3⟩
      rw [h3] at h
      have hokC : RoomOk st3 := by
        have := schedule_labs_roomOk cfg O st2 0 1 cfg.level_1_data.labs hokB
        rw [h3] at this
        exact this
      cases c3 with
      | false =>
        dsimp only at h
        have hp := Option.some.inj h
        have he : st3 = st := congrArg Prod.fst hp
        rw [← he]
        exact hokC
      | true =>
        dsimp only at h
        rcases h4 : schedule_labs cfg O st3 k3 2 cfg.level_2_data.labs
          with ⟨st4, cnt4, k4, c4⟩
        rw [h4] at h
        have hokD : RoomOk st4 := by
          have := schedule_labs_roomOk cfg O st3 k3 2 cfg.level_2_data.labs hokC
          rw [h4] at this
          exact this
        cases c4 with
        | false =>
          dsimp only at h
          have hp := Option.some.inj h
          have he : st4 = st := congrArg Prod.fst hp
          rw [← he]
          exact hokD
        | true =>
          dsimp only at h
          rcases h5 : run_l3_depts cfg O departments st4 k4 with ⟨st5, k5, c5⟩
          rw [h5] at h
          have hokE : RoomOk st5 := by
            have := run_l3_depts_roomOk cfg O hsel departments st4 k4 hokD
            rw [h5] at this
            exact this
          cases c5 with
          | false =>
            dsimp only at h
            have hp := Option.some.inj h
            have he : st5 = st := congrArg Prod.fst hp
            rw [← he]
            exact hokE
          | true =>
            dsimp only at h
            rcases h6 : run_l4_depts cfg O departments st5 k5 with _ | q
            · rw [h6] at h
              exact absurd h (by simp)
            · rcases q with ⟨st6, k6, c6⟩
              rw [h6] at h
              dsimp only at h
              have hokF : RoomOk st6 :=
                run_l4_depts_roomOk cfg O hsel hkeys departments st5 k5 st6 k6 c6 h6 hokE
              have hp := Option.some.inj h
              have he : st6 = st := congrArg Prod.fst hp
              rw [← he]
              exact hokF

/-- C1: a scheduling run that reports success commits an assignment list in
which no two Assignments share the same (room, day, slot) triple (time-slot
identities are unique per the data model; the selection oracle picks list
members, as Python's sort-and-index does). -/
theorem C1_no_shared_room_slot (cfg : SchedulerConfig) (O : RandomOracle)
    (st : SchedState) (hkeys : TSKeys cfg.time_slots) (hsel : O.SelectsMember)
    (h : generate_schedule cfg O = some (st, true)) :
    NoRoomClash st.assignments :=
  (generate_schedule_roomOk cfg O hsel hkeys st true h).1

/-- Witness for C1: the run on the empty catalog succeeds with a clash-free
(empty) assignment list. -/
theorem C1_no_shared_room_slot_witness : NoRoomClash init_state.assignments := by
  exact C1_no_shared_room_slot cfgEmpty oracleId init_state
    (by simp [TSKeys, cfgEmpty]) oracleId_selects (by rfl)

end TimeTable
